import Mathlib

/-!
# Verification of the MoonTV-Plus session-token refresh core

Shallow embedding of the client-side token-refresh and request-retry
coordinator of `src/components/WatchRoomProvider.tsx` (the
`TokenRefreshManager` component) and of the credential reader of
`src/lib/auth.ts` (`parseAuthInfo`, `getAuthTokenFromHeader`,
`getAuthInfoFromCookie`).

Modelling conventions:
* JavaScript strings are modelled as Lean `String` where only equality and
  substring tests are needed (URLs, path names, response bodies), and as
  `List Char` inside the character-level credential reader (percent
  decoding, JSON parsing).  Lone UTF-16 surrogates are outside the model.
* Machine numbers appearing in the expiry arithmetic (`Date.now()`,
  `timestamp`, `refreshExpires`, the two configured durations) are modelled
  as `Int`; JSON number literals are modelled as integers (fractional and
  exponent forms never occur in the credential payloads this core reads).
* The JavaScript scheduler is single threaded and cooperative: a task can
  only be interrupted at an `await`.  Each synchronous segment between two
  suspension points is therefore one atomic step of the model.
* Fallible operations (`decodeURIComponent`, `JSON.parse`) return `Option`.
-/

/-! ## Expiry policy (`shouldRefreshToken`, WatchRoomProvider.tsx lines 383-416) -/

/-- The two process-wide durations read from `TOKEN_CONFIG` in
`@/lib/refresh-token`.  The policy code is parametric in them, so the model
keeps them as parameters. -/
structure TokenConfig where
  accessTokenAge : Int
  renewalThreshold : Int
  deriving DecidableEq, Repr

/-- Modelled from the spec: the concrete `TOKEN_CONFIG` constants of
`@/lib/refresh-token` (a repository file not available here).  The spec's
scenario section fixes `ACCESS_LIFETIME = 15min` and
`RENEWAL_THRESHOLD = 10min`, in milliseconds. -/
def TOKEN_CONFIG : TokenConfig :=
  { accessTokenAge := 900000, renewalThreshold := 600000 }

/-- The credential record decoded from the `auth` cookie
(`AuthInfo` in `src/lib/auth.ts`).  All fields are optional, exactly as in
the TypeScript type.  String-valued fields are `List Char`; the two
instants are integers (epoch milliseconds). -/
structure AuthInfo where
  password : Option (List Char) := none
  username : Option (List Char) := none
  signature : Option (List Char) := none
  timestamp : Option Int := none
  role : Option (List Char) := none
  tokenId : Option (List Char) := none
  refreshToken : Option (List Char) := none
  refreshExpires : Option Int := none
  deriving DecidableEq, Repr

/-- JavaScript truthiness of an optional number field: `undefined` and `0`
are falsy (`!authInfo.timestamp`). -/
def jsTruthyNum : Option Int → Bool
  | none => false
  | some n => n != 0

/-- Result of one call to `shouldRefreshToken`: the returned boolean, and
whether the call fired the Session Termination sequence (the
logout call / cookie-clear fallback / redirect chain of lines 395-404). -/
structure SRResult where
  result : Bool
  terminated : Bool
  deriving DecidableEq, Repr

/-- `shouldRefreshToken` (lines 383-416).  `authInfo` is the result of
`getAuthInfoFromBrowserCookie()`, `now` is `Date.now()`.  The `pathname`
argument is the current `window.location.pathname`: the source uses it only
to build the redirect target of the termination sequence and never
branches on it. -/
def shouldRefreshToken (authInfo : Option AuthInfo) (now : Int)
    (cfg : TokenConfig) (_pathname : String) : SRResult :=
  match authInfo with
  | none => ⟨false, false⟩
  | some a =>
    if jsTruthyNum a.timestamp = false then ⟨false, false⟩
    else if jsTruthyNum a.refreshExpires = false then ⟨false, false⟩
    else
      let t := a.timestamp.getD 0
      let e := a.refreshExpires.getD 0
      if now ≥ e then
        -- Refresh token expired: logout, then redirect to /login (lines 392-406).
        ⟨false, true⟩
      else
        let age := now - t
        let remaining := cfg.accessTokenAge - age
        ⟨decide (remaining < cfg.renewalThreshold), false⟩

/-! ## Renewal coordinator (`refreshToken`, lines 327-380)

The module-level mutable cell pair `isRefreshing` / `refreshPromise` is the
coordinator state.  `callRefresh` is the synchronous prefix of one call to
`refreshToken`: everything from entry up to (and including) issuing the
renewal network request, which happens before the first `await`, hence in
one atomic scheduler step.  `settleRefresh` is the continuation that runs
when the network call settles: it computes the boolean outcome, runs the
`finally` block (which clears both cells), and only then resolves the
shared promise that all callers hold. -/

/-- Renewal coordinator state.  Promises are identified by the counter
`nextPromise`; `fetchCount` counts renewal network calls issued. -/
structure CoordState where
  isRefreshing : Bool
  refreshPromise : Option Nat
  nextPromise : Nat
  fetchCount : Nat
  deriving DecidableEq, Repr

/-- The idle coordinator: no renewal pending. -/
def coordInit : CoordState := ⟨false, none, 0, 0⟩

/-- The synchronous prefix of `refreshToken()` (lines 329-340): if a
renewal is already pending, return the pending promise; otherwise set the
flag, start the inner async block (which issues the renewal network call
before its first `await`) and publish its promise.  Returns the promise id
the caller will await. -/
def callRefresh (s : CoordState) : CoordState × Nat :=
  if s.isRefreshing ∧ s.refreshPromise.isSome then
    (s, s.refreshPromise.getD 0)
  else
    (⟨true, some s.nextPromise, s.nextPromise + 1, s.fetchCount + 1⟩, s.nextPromise)

/-- `N` callers of `refreshToken` running back to back, each in its own
atomic synchronous segment, none of them interleaved with the settling of
the network call.  Returns the final state and the promise id each caller
awaits. -/
def runCallers : Nat → CoordState → CoordState × List Nat
  | 0, s => (s, [])
  | n + 1, s =>
    let c := callRefresh s
    let r := runCallers n c.1
    (r.1, c.2 :: r.2)

/-- Outcome of the renewal network call as seen by `refreshToken`:
a settled response with some status code, or a network-level error
(the `catch` branch of lines 370-372). -/
inductive RefreshOutcome where
  | status (code : Nat)
  | netError
  deriving DecidableEq, Repr

/-- `response.ok`: status in the 200-299 range. -/
def respOk (code : Nat) : Bool := decide (200 ≤ code ∧ code < 300)

/-- The boolean result and termination effect of the body of the renewal
async block (lines 342-372), given the network outcome and the current
`window.location.pathname`.  Returns `(result, terminated)`:
`ok` response → `true`; `401`/`403` → Session Termination unless already on
`/login`, result `false`; any other status, or a network error → `false`
with no termination. -/
def refreshResult (pathname : String) (out : RefreshOutcome) : Bool × Bool :=
  match out with
  | .status code =>
    if respOk code then (true, false)
    else if code = 401 ∨ code = 403 then
      if pathname = "/login" then (false, false) else (false, true)
    else (false, false)
  | .netError => (false, false)

/-- Result of the settling step of a renewal. -/
structure SettleResult where
  state : CoordState
  promiseId : Nat
  value : Bool
  terminated : Bool
  deriving DecidableEq, Repr

/-- The continuation of the renewal async block after its network call
settles: compute the outcome (lines 342-372), run the `finally` block
clearing `isRefreshing` and `refreshPromise` (lines 373-376), and resolve
the published promise with the outcome.  The cleared state is in force
before the promise resolution is delivered to any caller, because the
`finally` block of an async function runs before its promise settles. -/
def settleRefresh (s : CoordState) (pathname : String) (out : RefreshOutcome) :
    SettleResult :=
  let r := refreshResult pathname out
  { state := { s with isRefreshing := false, refreshPromise := none }
    promiseId := s.refreshPromise.getD 0
    value := r.1
    terminated := r.2 }

/-- One complete, uncontended call to `refreshToken()` from the idle
state: the synchronous prefix followed by the settling of its network
call.  Returns `(result, terminated)`. -/
def refreshTokenRun (pathname : String) (out : RefreshOutcome) : Bool × Bool :=
  let c := callRefresh coordInit
  let st := settleRefresh c.1 pathname out
  (st.value, st.terminated)

/-! ## Request interceptor (the `window.fetch` wrapper, lines 422-502) -/

/-- `haystack.includes(needle)` on JavaScript strings. -/
def jsIncludes (haystack needle : String) : Bool :=
  haystack.data.tails.any (needle.data.isPrefixOf ·)

/-- The excluded-endpoint test of lines 427-435: the five path fragments
whose presence in the URL makes the wrapper delegate directly to the
original `fetch`. -/
def isExcludedUrl (url : String) : Bool :=
  jsIncludes url "/api/auth/refresh" ||
  jsIncludes url "/api/login" ||
  jsIncludes url "/api/logout" ||
  jsIncludes url "/api/register" ||
  jsIncludes url "/api/auth/oidc"

/-- The recognized 401 body markers of line 461. -/
def hasAuthMarker (body : String) : Bool :=
  jsIncludes body "Unauthorized" ||
  jsIncludes body "Refresh token expired" ||
  jsIncludes body "Access token expired"

/-- An HTTP response: status code and body text. -/
structure Response where
  status : Nat
  body : String
  deriving DecidableEq, Repr

/-- A call to the saved original `fetch`, labelled by what was requested:
the wrapped call's own input (`orig`), the renewal endpoint reached
through the wrapper's exclusion branch (`refreshCall`), or the logout
endpoint of a Session Termination sequence (`logoutCall`). -/
inductive CallLabel where
  | orig
  | refreshCall
  | logoutCall
  deriving DecidableEq, Repr

/-- The environment of one wrapped `fetch` call: the request, the ambient
browser state, and the behaviour of the network during this call.
`firstResponse` is what the original `fetch` returns for the request,
`retryResponse` what it returns if the request is replayed,
`refreshOutcome` what the renewal endpoint answers, and `bodyReadOk`
whether reading the cloned 401 body succeeds (line 458). -/
structure FetchEnv where
  url : String
  pathname : String
  authInfo : Option AuthInfo
  now : Int
  cfg : TokenConfig
  firstResponse : Response
  retryResponse : Response
  refreshOutcome : RefreshOutcome
  bodyReadOk : Bool
  deriving DecidableEq, Repr

/-- Observable result of one wrapped `fetch` call: the response handed to
the caller, the sequence of calls made to the original `fetch`, how many
renewal operations were started proactively (line 438-441) and reactively
(line 464), and how many times the Session Termination sequence fired. -/
structure WrapResult where
  response : Response
  origCalls : List CallLabel
  proactiveRenewals : Nat
  reactiveRenewals : Nat
  terminations : Nat
  deriving DecidableEq, Repr

/-- The wrapped `window.fetch` (lines 422-502), executed sequentially: each
renewal it awaits runs to completion (via `refreshTokenRun`) before the
wrapper continues.  The renewal endpoint and the logout endpoint are
themselves fetched through `window.fetch` and land on the original `fetch`
through the exclusion branch; they appear in `origCalls` with their own
labels. -/
def wrappedFetch (env : FetchEnv) : WrapResult :=
  if isExcludedUrl env.url then
    -- Lines 427-435: excluded endpoint, delegate directly.
    ⟨env.firstResponse, [.orig], 0, 0, 0⟩
  else
    -- Lines 437-441: pre-request proactive renewal.
    let pre := shouldRefreshToken env.authInfo env.now env.cfg env.pathname
    let preTrace : List CallLabel := if pre.terminated then [.logoutCall] else []
    let preTerms : Nat := if pre.terminated then 1 else 0
    let pro :=
      if pre.result then
        let rt := refreshTokenRun env.pathname env.refreshOutcome
        (CallLabel.refreshCall :: (if rt.2 then [CallLabel.logoutCall] else []),
         1, if rt.2 then (1 : Nat) else 0)
      else ([], 0, 0)
    let base := preTrace ++ pro.1 ++ [CallLabel.orig]
    let resp := env.firstResponse
    if resp.status = 401 then
      if env.pathname = "/login" then
        -- Lines 448-452: on the login page, skip all refresh logic.
        ⟨resp, base, pro.2.1, 0, preTerms + pro.2.2⟩
      else if env.bodyReadOk then
        if hasAuthMarker resp.body then
          -- Lines 461-492: recognized credential failure.
          let rt := refreshTokenRun env.pathname env.refreshOutcome
          let reTrace := CallLabel.refreshCall ::
            (if rt.2 then [CallLabel.logoutCall] else [])
          let reTerms : Nat := if rt.2 then 1 else 0
          if rt.1 then
            -- Refresh succeeded: replay the original request once (line 468).
            let resp2 := env.retryResponse
            if resp2.status = 401 then
              if env.pathname = "/login" then
                ⟨resp2, base ++ reTrace ++ [CallLabel.orig],
                 pro.2.1, 1, preTerms + pro.2.2 + reTerms⟩
              else
                -- Lines 471-491: still 401, Session Termination.
                ⟨resp2, base ++ reTrace ++ [CallLabel.orig, CallLabel.logoutCall],
                 pro.2.1, 1, preTerms + pro.2.2 + reTerms + 1⟩
            else
              ⟨resp2, base ++ reTrace ++ [CallLabel.orig],
               pro.2.1, 1, preTerms + pro.2.2 + reTerms⟩
          else
            -- Refresh failed: return the original 401 unchanged.
            ⟨resp, base ++ reTrace, pro.2.1, 1, preTerms + pro.2.2 + reTerms⟩
        else
          -- Line 493-495: unrecognized 401, pass through.
          ⟨resp, base, pro.2.1, 0, preTerms + pro.2.2⟩
      else
        -- Lines 496-498: body read failed, pass through.
        ⟨resp, base, pro.2.1, 0, preTerms + pro.2.2⟩
    else
      ⟨resp, base, pro.2.1, 0, preTerms + pro.2.2⟩

/-! ## Credential reader (`src/lib/auth.ts`)

Character-level model of `getAuthTokenFromHeader`, `parseAuthInfo` and
`getAuthInfoFromCookie`, together with the platform primitives they call:
`String.prototype.trim`, the two `^Bearer\s+(.+)$`-style regexes,
`decodeURIComponent` (with strict UTF-8 validation, as in ECMA-262),
`encodeURIComponent`, and `JSON.parse`.  JSON number literals are modelled
as integers: fractional and exponent forms are rejected by the model
(none occur in credential payloads); everything else follows the JSON
grammar accepted by `JSON.parse`. -/

/-- The JavaScript whitespace class: the characters matched by `\s` and
stripped by `String.prototype.trim` (WhiteSpace ∪ LineTerminator). -/
def jsWhitespace (c : Char) : Bool :=
  decide (c = ' ' ∨ c = '\t' ∨ c = '\n' ∨ c = '\r'
    ∨ c.toNat = 0x0B ∨ c.toNat = 0x0C ∨ c.toNat = 0xA0 ∨ c.toNat = 0x1680
    ∨ (0x2000 ≤ c.toNat ∧ c.toNat ≤ 0x200A)
    ∨ c.toNat = 0x2028 ∨ c.toNat = 0x2029 ∨ c.toNat = 0x202F
    ∨ c.toNat = 0x205F ∨ c.toNat = 0x3000 ∨ c.toNat = 0xFEFF)

/-- JavaScript line terminators, which `.` does not match. -/
def isLineTerm (c : Char) : Bool :=
  decide (c = '\n' ∨ c = '\r' ∨ c.toNat = 0x2028 ∨ c.toNat = 0x2029)

/-- `String.prototype.trim`. -/
def jsTrim (s : List Char) : List Char :=
  ((s.dropWhile jsWhitespace).reverse.dropWhile jsWhitespace).reverse

/-- ASCII lowercasing, the case folding performed by `/i` (without the `u`
flag a non-ASCII character never canonicalizes onto an ASCII one). -/
def asciiLower (c : Char) : Char :=
  if 'A' ≤ c ∧ c ≤ 'Z' then Char.ofNat (c.toNat + 32) else c

/-- Strip a case-insensitive prefix, returning the remainder. -/
def dropCaseInsPrefix : List Char → List Char → Option (List Char)
  | [], s => some s
  | _ :: _, [] => none
  | p :: ps, c :: cs =>
    if asciiLower c = asciiLower p then dropCaseInsPrefix ps cs else none

/-- Matching `^<scheme>\s+(.+)$` (flags `i`, no `m`/`s`) against an
already-trimmed string: a case-insensitive `scheme` prefix, one or more
whitespace characters, then a nonempty remainder containing no line
terminator (`.` excludes line terminators, and since any shorter choice
for the greedy `\s+` only grows the capture, a line terminator anywhere in
the remainder kills every choice).  Returns the captured group. -/
def matchSchemePrefix (scheme : List Char) (s : List Char) : Option (List Char) :=
  match dropCaseInsPrefix scheme s with
  | none => none
  | some rest =>
    let ws := rest.takeWhile jsWhitespace
    let rem := rest.dropWhile jsWhitespace
    if ws.isEmpty then none
    else if rem.isEmpty then none
    else if rem.any isLineTerm then none
    else some rem

/-- `getAuthTokenFromHeader` (auth.ts lines 14-31): trim; empty → empty;
try the `Bearer` regex, then the `Token` regex, trimming the capture;
otherwise return the trimmed value itself. -/
def getAuthTokenFromHeader (value : List Char) : List Char :=
  let trimmed := jsTrim value
  if trimmed.isEmpty then []
  else
    match matchSchemePrefix "bearer".data trimmed with
    | some cap => jsTrim cap
    | none =>
      match matchSchemePrefix "token".data trimmed with
      | some cap => jsTrim cap
      | none => trimmed

/-! ### Percent encoding (`encodeURIComponent` / `decodeURIComponent`) -/

/-- The characters `encodeURIComponent` leaves unescaped. -/
def isUriUnreserved (c : Char) : Bool :=
  decide (('A' ≤ c ∧ c ≤ 'Z') ∨ ('a' ≤ c ∧ c ≤ 'z') ∨ ('0' ≤ c ∧ c ≤ '9')
    ∨ c = '-' ∨ c = '_' ∨ c = '.' ∨ c = '!' ∨ c = '~' ∨ c = '*'
    ∨ c = '\'' ∨ c = '(' ∨ c = ')')

/-- UTF-8 encoding of a Unicode scalar value. -/
def utf8Bytes (v : Nat) : List Nat :=
  if v < 0x80 then [v]
  else if v < 0x800 then [0xC0 + v / 64, 0x80 + v % 64]
  else if v < 0x10000 then [0xE0 + v / 4096, 0x80 + v / 64 % 64, 0x80 + v % 64]
  else [0xF0 + v / 262144, 0x80 + v / 4096 % 64, 0x80 + v / 64 % 64, 0x80 + v % 64]

/-- Uppercase hex digit, as emitted by `encodeURIComponent`. -/
def hexUpper (n : Nat) : Char :=
  if n < 10 then Char.ofNat (48 + n) else Char.ofNat (55 + n)

/-- A `%XX` escape for one byte. -/
def byteToHex (b : Nat) : List Char := ['%', hexUpper (b / 16), hexUpper (b % 16)]

/-- `encodeURIComponent`: unreserved characters pass through, every other
character is UTF-8 encoded and each byte written as `%XX`. -/
def encodeURIComponent (s : List Char) : List Char :=
  (s.map (fun c =>
    if isUriUnreserved c then [c] else ((utf8Bytes c.toNat).map byteToHex).flatten)).flatten

/-- Value of one hex digit (either case accepted when decoding). -/
def hexVal (c : Char) : Option Nat :=
  if '0' ≤ c ∧ c ≤ '9' then some (c.toNat - 48)
  else if 'A' ≤ c ∧ c ≤ 'F' then some (c.toNat - 55)
  else if 'a' ≤ c ∧ c ≤ 'f' then some (c.toNat - 87)
  else none

/-- Read one `%XX` escape. -/
def readPctByte : List Char → Option (Nat × List Char)
  | '%' :: h :: l :: rest =>
    (match hexVal h, hexVal l with
     | some a, some b => some (16 * a + b, rest)
     | _, _ => none)
  | _ => none

/-- Read one `%XX` escape that must be a UTF-8 continuation byte. -/
def readContByte (s : List Char) : Option (Nat × List Char) :=
  match readPctByte s with
  | some (b, r) => if 0x80 ≤ b ∧ b < 0xC0 then some (b, r) else none
  | none => none

/-- The decoding loop of `decodeURIComponent`: characters other than `%`
pass through; a `%` introduces a UTF-8 sequence of percent escapes which
must be structurally valid, minimally encoded, not a surrogate, and at
most `U+10FFFF` — otherwise the whole decode throws (`none`).  `fuel`
bounds the recursion; one unit of fuel is spent per decoded character. -/
def decodeChars : Nat → List Char → Option (List Char)
  | _, [] => some []
  | 0, _ :: _ => none
  | fuel + 1, c :: rest =>
    if c = '%' then
      match readPctByte (c :: rest) with
      | none => none
      | some (b1, r1) =>
        if b1 < 0x80 then (decodeChars fuel r1).map (Char.ofNat b1 :: ·)
        else if b1 < 0xC0 then none
        else if b1 < 0xE0 then
          match readContByte r1 with
          | none => none
          | some (b2, r2) =>
            let v := (b1 - 0xC0) * 64 + (b2 - 0x80)
            if v < 0x80 then none
            else (decodeChars fuel r2).map (Char.ofNat v :: ·)
        else if b1 < 0xF0 then
          match readContByte r1 with
          | none => none
          | some (b2, r2) =>
            match readContByte r2 with
            | none => none
            | some (b3, r3) =>
              let v := (b1 - 0xE0) * 4096 + (b2 - 0x80) * 64 + (b3 - 0x80)
              if v < 0x800 then none
              else if 0xD800 ≤ v ∧ v < 0xE000 then none
              else (decodeChars fuel r3).map (Char.ofNat v :: ·)
        else if b1 < 0xF8 then
          match readContByte r1 with
          | none => none
          | some (b2, r2) =>
            match readContByte r2 with
            | none => none
            | some (b3, r3) =>
              match readContByte r3 with
              | none => none
              | some (b4, r4) =>
                let v := (b1 - 0xF0) * 262144 + (b2 - 0x80) * 4096
                  + (b3 - 0x80) * 64 + (b4 - 0x80)
                if v < 0x10000 then none
                else if 0x110000 ≤ v then none
                else (decodeChars fuel r4).map (Char.ofNat v :: ·)
        else none
    else (decodeChars fuel rest).map (c :: ·)

/-- `decodeURIComponent` as a total function returning `none` where the
JavaScript builtin throws `URIError`.  The input length is always enough
fuel, since every decoded character consumes at least one input
character. -/
def decodeURIComponent (s : List Char) : Option (List Char) :=
  decodeChars s.length s

/-! ### `JSON.parse` / `JSON.stringify` -/

/-- A parsed JSON value.  Numbers are modelled as integers. -/
inductive Json where
  | null
  | bool (b : Bool)
  | num (n : Int)
  | str (s : List Char)
  | arr (elems : List Json)
  | obj (members : List (List Char × Json))
  deriving Repr

/-- JavaScript truthiness of a parsed JSON value: `null`, `false`, `0` and
the empty string are falsy; every other value — in particular every object
and array — is truthy. -/
def jsTruthy : Json → Bool
  | .null => false
  | .bool b => b
  | .num n => n != 0
  | .str s => !s.isEmpty
  | .arr _ => true
  | .obj _ => true

/-- The JSON whitespace characters. -/
def jsonWs (c : Char) : Bool :=
  decide (c = ' ' ∨ c = '\t' ∨ c = '\n' ∨ c = '\r')

/-- Skip JSON whitespace. -/
def skipWs (s : List Char) : List Char := s.dropWhile jsonWs

/-- Four hex digits of a `\uXXXX` escape. -/
def parseHex4 : List Char → Option (Nat × List Char)
  | a :: b :: c :: d :: rest =>
    (match hexVal a, hexVal b, hexVal c, hexVal d with
     | some x, some y, some z, some w => some (4096 * x + 256 * y + 16 * z + w, rest)
     | _, _, _, _ => none)
  | _ => none

/-- Body of a JSON string literal, after the opening quote: plain
characters up to the closing quote, with the JSON escapes; a raw control
character is a parse error.  A `\uXXXX` escape in the surrogate range is
rejected by the model (JavaScript would produce a lone UTF-16 surrogate,
which `List Char` cannot represent; well-formed payloads never contain
one). -/
def parseStringBody : Nat → List Char → Option (List Char × List Char)
  | _, [] => none
  | 0, _ :: _ => none
  | fuel + 1, c :: rest =>
    if c = '"' then some ([], rest)
    else if c = '\\' then
      match rest with
      | [] => none
      | e :: rest2 =>
        if e = '"' then (parseStringBody fuel rest2).map (fun p => ('"' :: p.1, p.2))
        else if e = '\\' then (parseStringBody fuel rest2).map (fun p => ('\\' :: p.1, p.2))
        else if e = '/' then (parseStringBody fuel rest2).map (fun p => ('/' :: p.1, p.2))
        else if e = 'b' then (parseStringBody fuel rest2).map (fun p => (Char.ofNat 8 :: p.1, p.2))
        else if e = 'f' then (parseStringBody fuel rest2).map (fun p => (Char.ofNat 12 :: p.1, p.2))
        else if e = 'n' then (parseStringBody fuel rest2).map (fun p => ('\n' :: p.1, p.2))
        else if e = 'r' then (parseStringBody fuel rest2).map (fun p => ('\r' :: p.1, p.2))
        else if e = 't' then (parseStringBody fuel rest2).map (fun p => ('\t' :: p.1, p.2))
        else if e = 'u' then
          match parseHex4 rest2 with
          | none => none
          | some (v, rest3) =>
            if 0xD800 ≤ v ∧ v < 0xE000 then none
            else (parseStringBody fuel rest3).map (fun p => (Char.ofNat v :: p.1, p.2))
        else none
    else if c.toNat < 0x20 then none
    else (parseStringBody fuel rest).map (fun p => (c :: p.1, p.2))

/-- Digit test. -/
def isDigitCh (c : Char) : Bool := decide ('0' ≤ c ∧ c ≤ '9')

/-- Numeric value of a big-endian digit string. -/
def valOfDigits (ds : List Char) : Nat :=
  ds.foldl (fun a c => a * 10 + (c.toNat - 48)) 0

/-- Whether the next character would continue a number literal: a further
digit (which would make a leading-zero literal illegal) or a fraction or
exponent marker (legal JSON, outside this integer model). -/
def numCont : List Char → Bool
  | [] => false
  | c :: _ => isDigitCh c || c = '.' || c = 'e' || c = 'E'

/-- Unsigned integer part of a JSON number literal: `0`, or a nonzero
digit followed by digits. -/
def parseNumberNat (s : List Char) : Option (Nat × List Char) :=
  match s with
  | [] => none
  | c :: t =>
    if c = '0' then
      if numCont t then none else some (0, t)
    else if isDigitCh c then
      let ds := t.takeWhile isDigitCh
      let r := t.dropWhile isDigitCh
      if numCont r then none else some (valOfDigits (c :: ds), r)
    else none

/-- A JSON number literal (integers only, see `numCont`): an optional
leading minus sign, then the unsigned part. -/
def parseNumber (s : List Char) : Option (Int × List Char) :=
  match s with
  | [] => none
  | c :: t =>
    if c = '-' then (parseNumberNat t).map (fun p => (-(p.1 : Int), p.2))
    else (parseNumberNat (c :: t)).map (fun p => ((p.1 : Int), p.2))

mutual

/-- One JSON value, after skipping leading whitespace.  `fuel` bounds the
nesting-and-sequence recursion through containers. -/
def parseJson : Nat → List Char → Option (Json × List Char)
  | 0, _ => none
  | fuel + 1, s =>
    match skipWs s with
    | [] => none
    | c :: rest =>
      if c = 'n' then
        match rest with
        | 'u' :: 'l' :: 'l' :: r => some (.null, r)
        | _ => none
      else if c = 't' then
        match rest with
        | 'r' :: 'u' :: 'e' :: r => some (.bool true, r)
        | _ => none
      else if c = 'f' then
        match rest with
        | 'a' :: 'l' :: 's' :: 'e' :: r => some (.bool false, r)
        | _ => none
      else if c = '"' then
        (parseStringBody rest.length rest).map (fun p => (.str p.1, p.2))
      else if c = '{' then parseMembers fuel (skipWs rest) true
      else if c = '[' then parseElements fuel (skipWs rest) true
      else (parseNumber (c :: rest)).map (fun p => (.num p.1, p.2))

/-- The member list of a JSON object; the input starts after `{` (or after
a `,`), whitespace already skipped.  `first` is true before the first
member, where `}` is allowed immediately. -/
def parseMembers : Nat → List Char → Bool → Option (Json × List Char)
  | 0, _, _ => none
  | fuel + 1, s, first =>
    match s with
    | '}' :: r => if first then some (.obj [], r) else none
    | '"' :: r =>
      match parseStringBody r.length r with
      | none => none
      | some (key, r2) =>
        match skipWs r2 with
        | [] => none
        | c3 :: r3 =>
          if c3 = ':' then
            match parseJson fuel r3 with
            | none => none
            | some (v, r4) =>
              match skipWs r4 with
              | [] => none
              | c5 :: r5 =>
                if c5 = ',' then
                  match parseMembers fuel (skipWs r5) false with
                  | some (.obj ms, r6) => some (.obj ((key, v) :: ms), r6)
                  | _ => none
                else if c5 = '}' then some (.obj [(key, v)], r5)
                else none
          else none
    | _ => none

/-- The element list of a JSON array; the input starts after `[` (or after
a `,`), whitespace already skipped. -/
def parseElements : Nat → List Char → Bool → Option (Json × List Char)
  | 0, _, _ => none
  | fuel + 1, s, first =>
    match s with
    | ']' :: r => if first then some (.arr [], r) else none
    | _ =>
      match parseJson fuel s with
      | none => none
      | some (v, r2) =>
        match skipWs r2 with
        | [] => none
        | c3 :: r3 =>
          if c3 = ',' then
            match parseElements fuel (skipWs r3) false with
            | some (.arr es, r4) => some (.arr (v :: es), r4)
            | _ => none
          else if c3 = ']' then some (.arr [v], r3)
          else none

end

/-- `JSON.parse`: parse one value and require only whitespace after it. -/
def jsonParse (s : List Char) : Option Json :=
  match parseJson (s.length + 1) s with
  | some (v, rest) => if (skipWs rest).isEmpty then some v else none
  | none => none

/-- Lowercase hex digit, as emitted by `JSON.stringify` in `\u00XX`
escapes. -/
def hexLower (n : Nat) : Char :=
  if n < 10 then Char.ofNat (48 + n) else Char.ofNat (87 + n)

/-- `JSON.stringify`'s escaping of one string character: `"` and `\` get
a backslash escape, the five named control characters use their short
forms, other control characters become `\u00XX`, everything else is
emitted as is. -/
def escapeChar (c : Char) : List Char :=
  if c = '"' then ['\\', '"']
  else if c = '\\' then ['\\', '\\']
  else if c.toNat = 8 then ['\\', 'b']
  else if c.toNat = 12 then ['\\', 'f']
  else if c = '\n' then ['\\', 'n']
  else if c = '\r' then ['\\', 'r']
  else if c = '\t' then ['\\', 't']
  else if c.toNat < 0x20 then
    ['\\', 'u', '0', '0', hexLower (c.toNat / 16), hexLower (c.toNat % 16)]
  else [c]

/-- The escaped body of a string literal. -/
def escapeString (s : List Char) : List Char := (s.map escapeChar).flatten

/-- Decimal digits of a natural number (big-endian, accumulator form);
`fuel` structurally bounds the recursion, one unit per digit. -/
def natToCharsAux : Nat → Nat → List Char → List Char
  | 0, _, acc => acc
  | fuel + 1, n, acc =>
    if n < 10 then Char.ofNat (48 + n) :: acc
    else natToCharsAux fuel (n / 10) (Char.ofNat (48 + n % 10) :: acc)

/-- Decimal digits of a natural number. -/
def natToChars (n : Nat) : List Char := natToCharsAux (n + 1) n []

/-- Decimal representation of an integer. -/
def intToChars : Int → List Char
  | .ofNat m => natToChars m
  | .negSucc m => '-' :: natToChars (m + 1)

mutual

/-- `JSON.stringify` of a value (no replacer, no spacing). -/
def stringifyV : Json → List Char
  | .null => 'n' :: 'u' :: 'l' :: 'l' :: []
  | .bool true => 't' :: 'r' :: 'u' :: 'e' :: []
  | .bool false => 'f' :: 'a' :: 'l' :: 's' :: 'e' :: []
  | .num n => intToChars n
  | .str s => '"' :: (escapeString s ++ ['"'])
  | .arr [] => '[' :: ']' :: []
  | .arr (e :: es) => '[' :: (stringifyV e ++ stringifyRestL es)
  | .obj [] => '{' :: '}' :: []
  | .obj (m :: ms) =>
    '{' :: ('"' :: (escapeString m.1 ++ ('"' :: ':' :: stringifyV m.2)) ++ stringifyRestM ms)

/-- Remaining array elements, each preceded by `,`, then `]`. -/
def stringifyRestL : List Json → List Char
  | [] => [']']
  | e :: es => ',' :: (stringifyV e ++ stringifyRestL es)

/-- Remaining object members, each preceded by `,`, then `}`. -/
def stringifyRestM : List (List Char × Json) → List Char
  | [] => ['}']
  | m :: ms =>
    ',' :: ('"' :: (escapeString m.1 ++ ('"' :: ':' :: stringifyV m.2)) ++ stringifyRestM ms)

end

/-- `parseAuthInfo` (auth.ts lines 33-59): falsy input (absent or empty)
gives `null`; otherwise decode once (falling back to the input on a
`URIError`), decode a second time only if the intermediate still contains
a `%` (falling back to the *original* input on a `URIError`, exactly as
the source does), then `JSON.parse` the result, mapping a parse error to
`null`. -/
def parseAuthInfo (value : Option (List Char)) : Option Json :=
  match value with
  | none => none
  | some v =>
    if v.isEmpty then none
    else
      let d1 := match decodeURIComponent v with
        | some d => d
        | none => v
      let d2 :=
        if d1.contains '%' then
          match decodeURIComponent d1 with
          | some d => d
          | none => v
        else d1
      jsonParse d2

/-- A server-side request as `getAuthInfoFromCookie` sees it: the
`authorization` header (if present) and the `auth` cookie value (if
present). -/
structure AuthRequest where
  authorization : Option (List Char)
  authCookie : Option (List Char)

/-- `getAuthInfoFromCookie` (auth.ts lines 62-79): if the `authorization`
header is present and truthy (nonempty), strip the scheme and parse; a
truthy parse result is returned.  Otherwise fall back to the `auth`
cookie: absent cookie gives `null`, otherwise the cookie value is parsed
and returned as is. -/
def getAuthInfoFromCookie (req : AuthRequest) : Option Json :=
  let fromHeader :=
    match req.authorization with
    | none => none
    | some h =>
      if h.isEmpty then none
      else
        match parseAuthInfo (some (getAuthTokenFromHeader h)) with
        | none => none
        | some j => if jsTruthy j then some j else none
  match fromHeader with
  | some j => some j
  | none =>
    match req.authCookie with
    | none => none
    | some cv => parseAuthInfo (some cv)

/-- The JSON object `JSON.stringify` produces for a credential record:
the record's defined fields, in the declaration order of the `AuthInfo`
type. -/
def authInfoToJson (a : AuthInfo) : Json :=
  Json.obj
    ((match a.password with | some s => [("password".data, Json.str s)] | none => []) ++
     (match a.username with | some s => [("username".data, Json.str s)] | none => []) ++
     (match a.signature with | some s => [("signature".data, Json.str s)] | none => []) ++
     (match a.timestamp with | some n => [("timestamp".data, Json.num n)] | none => []) ++
     (match a.role with | some s => [("role".data, Json.str s)] | none => []) ++
     (match a.tokenId with | some s => [("tokenId".data, Json.str s)] | none => []) ++
     (match a.refreshToken with | some s => [("refreshToken".data, Json.str s)] | none => []) ++
     (match a.refreshExpires with | some n => [("refreshExpires".data, Json.num n)] | none => []))

/-! ## Theorems: renewal coordinator -/

/-- Once a renewal is pending (state after the first caller), every further
caller gets the same pending promise and the state is unchanged. -/
theorem runCallers_pending (m : Nat) :
    runCallers m ⟨true, some 0, 1, 1⟩ = (⟨true, some 0, 1, 1⟩, List.replicate m 0) := by
  induction m with
  | zero => rfl
  | succ n ih =>
    simp [runCallers, callRefresh, ih, List.replicate_succ]

/-- C1 — Single-flight renewal: for any `N ≥ 2` concurrent callers of
`refreshToken` starting from the idle coordinator, exactly one renewal
network call is issued (`fetchCount = 1`); every caller receives the same
pending promise (id `0`); and when that promise settles, all `N` callers
observe the same resolved boolean outcome. -/
theorem singleFlightRenewal (N : Nat) (hN : 2 ≤ N) (path : String)
    (out : RefreshOutcome) :
    (runCallers N coordInit).1.fetchCount = 1
    ∧ (runCallers N coordInit).2 = List.replicate N 0
    ∧ (runCallers N coordInit).2.map
        (fun i => if i = (settleRefresh (runCallers N coordInit).1 path out).promiseId
                  then some (settleRefresh (runCallers N coordInit).1 path out).value
                  else none)
      = List.replicate N (some (refreshResult path out).1) := by
  obtain ⟨n, rfl⟩ : ∃ n, N = n + 1 := ⟨N - 1, by omega⟩
  have hrun : runCallers (n + 1) coordInit = (⟨true, some 0, 1, 1⟩, List.replicate (n + 1) 0) := by
    simp [runCallers, callRefresh, coordInit, runCallers_pending, List.replicate_succ]
  refine ⟨by simp [hrun], by simp [hrun], ?_⟩
  simp [hrun, settleRefresh, List.map_replicate]

/-- Witness for C1 at `N = 2`. -/
theorem singleFlightRenewal_witness :
    (runCallers 2 coordInit).1.fetchCount = 1
    ∧ (runCallers 2 coordInit).2 = List.replicate 2 0
    ∧ (runCallers 2 coordInit).2.map
        (fun i => if i = (settleRefresh (runCallers 2 coordInit).1 "/play" (.status 200)).promiseId
                  then some (settleRefresh (runCallers 2 coordInit).1 "/play" (.status 200)).value
                  else none)
      = List.replicate 2 (some (refreshResult "/play" (.status 200)).1) :=
  singleFlightRenewal 2 (by decide) "/play" (.status 200)

/-- C7 — In-flight handle clearing: after a renewal settles — whatever the
outcome (`out` ranges over success, any failure status, and network error)
— the `isRefreshing` flag is `false` and `refreshPromise` is `null`.  The
`finally` block producing this state runs before the promise resolution is
delivered, so the cleared state holds before callers observe the result
(`settleRefresh` returns the cleared state together with the resolution).
A later call to `refreshToken` therefore issues a fresh network call
(`fetchCount` increments and a new promise id is handed out) instead of
being blocked. -/
theorem inflightHandleCleared (s : CoordState) (path : String)
    (out : RefreshOutcome) :
    (settleRefresh s path out).state.isRefreshing = false
    ∧ (settleRefresh s path out).state.refreshPromise = none
    ∧ (callRefresh (settleRefresh s path out).state).1.fetchCount = s.fetchCount + 1
    ∧ (callRefresh (settleRefresh s path out).state).1.isRefreshing = true := by
  simp [settleRefresh, callRefresh]

/-! ## Theorems: expiry policy -/

/-- C3 (amended) — Expiry-policy postcondition: `shouldRefreshToken`
returns `true` iff the decoded credential record is non-null, carries both
`timestamp` and `refreshExpires` as nonzero (JavaScript-truthy) values,
`now < refreshExpires`, and
`ACCESS_LIFETIME − (now − timestamp) < RENEWAL_THRESHOLD`.  In particular
it returns `false` for a null record or one missing either field. -/
theorem renewalDueIff (a : Option AuthInfo) (now : Int) (cfg : TokenConfig)
    (path : String) :
    (shouldRefreshToken a now cfg path).result = true ↔
      ∃ r t e, a = some r ∧ r.timestamp = some t ∧ t ≠ 0
        ∧ r.refreshExpires = some e ∧ e ≠ 0
        ∧ now < e ∧ cfg.accessTokenAge - (now - t) < cfg.renewalThreshold := by
  cases a with
  | none => simp [shouldRefreshToken]
  | some r =>
    cases ht : r.timestamp with
    | none => simp [shouldRefreshToken, jsTruthyNum, ht]
    | some t =>
      cases he : r.refreshExpires with
      | none => simp [shouldRefreshToken, jsTruthyNum, ht, he]
      | some e =>
        by_cases ht0 : t = 0
        · simp [shouldRefreshToken, jsTruthyNum, ht, he, ht0]
        · by_cases he0 : e = 0
          · simp [shouldRefreshToken, jsTruthyNum, ht, he, ht0, he0]
          · by_cases hexp : now ≥ e
            · simp [shouldRefreshToken, jsTruthyNum, ht, he, ht0, he0, hexp]
            · simp [shouldRefreshToken, jsTruthyNum, ht, he, ht0, he0, hexp]
              intro _
              omega

/-- C3 counterexample — the claim as stated (requiring only that the two
fields are *present*) fails on the code: with `timestamp = 0` (a present
field, epoch 1970) the record satisfies every condition of the claim's
right-hand side, yet `shouldRefreshToken` returns `false`, because the
JavaScript truthiness test `!authInfo.timestamp` treats `0` as missing. -/
theorem renewalDueClaimCounterexample :
    (({ timestamp := some 0, refreshExpires := some 2000000000000 } : AuthInfo)).timestamp.isSome = true
    ∧ (({ timestamp := some 0, refreshExpires := some 2000000000000 } : AuthInfo)).refreshExpires.isSome = true
    ∧ ((1000000000000 : Int) < 2000000000000)
    ∧ (TOKEN_CONFIG.accessTokenAge - ((1000000000000 : Int) - 0) < TOKEN_CONFIG.renewalThreshold)
    ∧ (shouldRefreshToken
        (some { timestamp := some 0, refreshExpires := some 2000000000000 })
        1000000000000 TOKEN_CONFIG "/play").result = false := by
  decide

/-- C5 (amended) — Expired long-lived credential: for every record carrying
both `timestamp` and `refreshExpires` as nonzero (truthy) values with
`now ≥ refreshExpires`, `shouldRefreshToken` fires Session Termination
(logout call, cookie-clear fallback, redirect to `/login`) and returns
`false` — on every page — and the wrapped fetch performs no proactive
renewal call for such a credential. -/
theorem expiredRefreshTerminates (r : AuthInfo) (now : Int) (cfg : TokenConfig)
    (t e : Int) (ht : r.timestamp = some t) (ht0 : t ≠ 0)
    (he : r.refreshExpires = some e) (he0 : e ≠ 0) (hexp : e ≤ now) :
    (∀ p : String, shouldRefreshToken (some r) now cfg p = ⟨false, true⟩)
    ∧ (∀ env : FetchEnv, env.authInfo = some r → env.now = now → env.cfg = cfg →
        (wrappedFetch env).proactiveRenewals = 0) := by
  have hsr : ∀ p : String, shouldRefreshToken (some r) now cfg p = ⟨false, true⟩ := by
    intro p
    have : now ≥ e := hexp
    simp [shouldRefreshToken, jsTruthyNum, ht, he, ht0, he0, this]
  refine ⟨hsr, ?_⟩
  intro env ha hn hc
  have hres : (shouldRefreshToken env.authInfo env.now env.cfg env.pathname).result = false := by
    rw [ha, hn, hc, hsr env.pathname]
  by_cases hex : isExcludedUrl env.url
  · simp [wrappedFetch, hex]
  · simp only [wrappedFetch, hex, Bool.false_eq_true, if_false, hres]
    by_cases h1 : env.firstResponse.status = 401 <;>
      by_cases h2 : env.pathname = "/login" <;>
        by_cases h3 : env.bodyReadOk <;>
          by_cases h4 : hasAuthMarker env.firstResponse.body <;>
            by_cases h5 : (refreshTokenRun env.pathname env.refreshOutcome).1 <;>
              by_cases h6 : env.retryResponse.status = 401 <;>
                simp [h1, h2, h3, h4, h5, h6]

/-- Witness for C5 at a concrete expired credential and request. -/
theorem expiredRefreshTerminates_witness :
    shouldRefreshToken (some { timestamp := some 1, refreshExpires := some 5 })
      10 ⟨900000, 600000⟩ "/login" = ⟨false, true⟩
    ∧ (wrappedFetch
        { url := "/api/search", pathname := "/play"
          authInfo := some { timestamp := some 1, refreshExpires := some 5 }
          now := 10, cfg := ⟨900000, 600000⟩
          firstResponse := ⟨200, "ok"⟩, retryResponse := ⟨200, "ok"⟩
          refreshOutcome := .status 200, bodyReadOk := true }).proactiveRenewals = 0 :=
  ⟨(expiredRefreshTerminates { timestamp := some 1, refreshExpires := some 5 }
      10 ⟨900000, 600000⟩ 1 5 rfl (by decide) rfl (by decide) (by decide)).1 "/login",
   (expiredRefreshTerminates { timestamp := some 1, refreshExpires := some 5 }
      10 ⟨900000, 600000⟩ 1 5 rfl (by decide) rfl (by decide) (by decide)).2
     { url := "/api/search", pathname := "/play"
       authInfo := some { timestamp := some 1, refreshExpires := some 5 }
       now := 10, cfg := ⟨900000, 600000⟩
       firstResponse := ⟨200, "ok"⟩, retryResponse := ⟨200, "ok"⟩
       refreshOutcome := .status 200, bodyReadOk := true } rfl rfl rfl⟩

/-- C5 counterexample — the claim as stated fails on the code: a record
with present fields `timestamp = 0` and `refreshExpires = 10`, at
`now = 20 ≥ refreshExpires`, satisfies the claim's hypothesis ("carrying
both timestamp and refreshExpires"), yet the pre-request expiry check does
*not* fire Session Termination: the truthiness guard
`!authInfo.timestamp` returns `false` first. -/
theorem expiredRefreshClaimCounterexample :
    (({ timestamp := some 0, refreshExpires := some 10 } : AuthInfo)).timestamp.isSome = true
    ∧ (({ timestamp := some 0, refreshExpires := some 10 } : AuthInfo)).refreshExpires.isSome = true
    ∧ ((20 : Int) ≥ 10)
    ∧ (shouldRefreshToken (some { timestamp := some 0, refreshExpires := some 10 })
        20 TOKEN_CONFIG "/play").terminated = false := by
  decide

/-- C9 — Login-surface asymmetry of termination.  (1) When the pre-request
expiry check finds the refresh token expired, Session Termination fires on
*every* page, including `/login` itself; (2) the renewal coordinator's
rejected-renewal path suppresses termination exactly on `/login`; (3) the
401-response handling on `/login` returns the response with no reactive
renewal (and hence no replay-driven termination). -/
theorem terminationLoginAsymmetry :
    (∀ (r : AuthInfo) (now t e : Int) (cfg : TokenConfig),
        r.timestamp = some t → t ≠ 0 → r.refreshExpires = some e → e ≠ 0 → e ≤ now →
        (shouldRefreshToken (some r) now cfg "/login").terminated = true)
    ∧ (∀ code : Nat, code = 401 ∨ code = 403 →
        refreshResult "/login" (.status code) = (false, false)
        ∧ ∀ p : String, p ≠ "/login" → refreshResult p (.status code) = (false, true))
    ∧ (∀ env : FetchEnv, isExcludedUrl env.url = false →
        env.pathname = "/login" → env.firstResponse.status = 401 →
        (wrappedFetch env).reactiveRenewals = 0
        ∧ (wrappedFetch env).response = env.firstResponse) := by
  refine ⟨?_, ?_, ?_⟩
  · intro r now t e cfg ht ht0 he he0 hexp
    have : now ≥ e := hexp
    simp [shouldRefreshToken, jsTruthyNum, ht, he, ht0, he0, this]
  · intro code h43
    have hok : respOk code = false := by
      rcases h43 with rfl | rfl <;> decide
    constructor
    · simp [refreshResult, hok, h43]
    · intro p hp
      simp [refreshResult, hok, h43, hp]
  · intro env hex hlogin h401
    simp only [wrappedFetch, hex, Bool.false_eq_true, if_false, h401, if_true, hlogin]
    by_cases hp : (shouldRefreshToken env.authInfo env.now env.cfg "/login").result <;>
    by_cases hq : (shouldRefreshToken env.authInfo env.now env.cfg "/login").terminated <;>
    by_cases hr : (refreshTokenRun "/login" env.refreshOutcome).2 <;>
    simp [hp, hq, hr]

/-- Witness for C9 at concrete inputs. -/
theorem terminationLoginAsymmetry_witness :
    (shouldRefreshToken (some { timestamp := some 3, refreshExpires := some 7 })
      9 ⟨900000, 600000⟩ "/login").terminated = true
    ∧ refreshResult "/login" (.status 401) = (false, false)
    ∧ (wrappedFetch
        { url := "/api/search2", pathname := "/login"
          authInfo := none, now := 0, cfg := ⟨900000, 600000⟩
          firstResponse := ⟨401, "Unauthorized"⟩, retryResponse := ⟨200, "ok"⟩
          refreshOutcome := .status 200, bodyReadOk := true }).reactiveRenewals = 0 :=
  ⟨terminationLoginAsymmetry.1 { timestamp := some 3, refreshExpires := some 7 }
      9 3 7 ⟨900000, 600000⟩ rfl (by decide) rfl (by decide) (by decide),
   (terminationLoginAsymmetry.2.1 401 (Or.inl rfl)).1,
   (terminationLoginAsymmetry.2.2
     { url := "/api/search2", pathname := "/login"
       authInfo := none, now := 0, cfg := ⟨900000, 600000⟩
       firstResponse := ⟨401, "Unauthorized"⟩, retryResponse := ⟨200, "ok"⟩
       refreshOutcome := .status 200, bodyReadOk := true } (by decide) rfl rfl).1⟩

/-! ## Theorems: request interceptor -/

/-- C4 — Excluded-endpoint bypass: a request whose URL contains any of the
five excluded path fragments is delegated directly to the original
`fetch`: the response comes back unchanged, no renewal (proactive or
reactive) runs, and no termination fires — even when the response is
401. -/
theorem excludedEndpointBypass (env : FetchEnv)
    (h : jsIncludes env.url "/api/auth/refresh" = true
       ∨ jsIncludes env.url "/api/login" = true
       ∨ jsIncludes env.url "/api/logout" = true
       ∨ jsIncludes env.url "/api/register" = true
       ∨ jsIncludes env.url "/api/auth/oidc" = true) :
    wrappedFetch env = ⟨env.firstResponse, [.orig], 0, 0, 0⟩ := by
  have hex : isExcludedUrl env.url = true := by
    unfold isExcludedUrl
    rcases h with h | h | h | h | h <;> simp [h]
  simp [wrappedFetch, hex]

/-- Witness for C4: a login request whose response is 401 is passed through
untouched. -/
theorem excludedEndpointBypass_witness :
    wrappedFetch
      { url := "/api/login?next=1", pathname := "/play"
        authInfo := some { timestamp := some 1, refreshExpires := some 2 }
        now := 99, cfg := ⟨900000, 600000⟩
        firstResponse := ⟨401, "Unauthorized"⟩, retryResponse := ⟨200, "ok"⟩
        refreshOutcome := .status 200, bodyReadOk := true }
      = ⟨⟨401, "Unauthorized"⟩, [.orig], 0, 0, 0⟩ :=
  excludedEndpointBypass _ (Or.inr (Or.inl (by decide)))

set_option maxHeartbeats 2000000 in
/-- C6 (amended) — Unrecognized-401 passthrough: a wrapped (non-excluded)
request whose response is 401 with none of the recognized markers in the
body gets that response back unchanged, and no renewal is attempted *in
response to the 401* (no reactive renewal).  A proactive pre-request
renewal may still have occurred if the credential was near expiry. -/
theorem unrecognized401Passthrough (env : FetchEnv)
    (hex : isExcludedUrl env.url = false)
    (h401 : env.firstResponse.status = 401)
    (hm : hasAuthMarker env.firstResponse.body = false) :
    (wrappedFetch env).response = env.firstResponse
    ∧ (wrappedFetch env).reactiveRenewals = 0 := by
  simp only [wrappedFetch, hex, Bool.false_eq_true, if_false, h401, hm, if_true]
  by_cases h2 : env.pathname = "/login" <;> by_cases h3 : env.bodyReadOk <;>
    by_cases h5 : (shouldRefreshToken env.authInfo env.now env.cfg env.pathname).result <;>
      by_cases h6 : (refreshTokenRun env.pathname env.refreshOutcome).2 <;>
        by_cases h7 : (shouldRefreshToken env.authInfo env.now env.cfg env.pathname).terminated <;>
          simp [h2, h3, h5, h6, h7]

/-- Witness for C6 at a concrete unrecognized 401. -/
theorem unrecognized401Passthrough_witness :
    (wrappedFetch
      { url := "/api/detail", pathname := "/play"
        authInfo := none, now := 0, cfg := ⟨900000, 600000⟩
        firstResponse := ⟨401, "quota exceeded"⟩, retryResponse := ⟨200, "ok"⟩
        refreshOutcome := .status 200, bodyReadOk := true }).response = ⟨401, "quota exceeded"⟩
    ∧ (wrappedFetch
      { url := "/api/detail", pathname := "/play"
        authInfo := none, now := 0, cfg := ⟨900000, 600000⟩
        firstResponse := ⟨401, "quota exceeded"⟩, retryResponse := ⟨200, "ok"⟩
        refreshOutcome := .status 200, bodyReadOk := true }).reactiveRenewals = 0 :=
  unrecognized401Passthrough _ (by decide) rfl (by decide)

/-- C6 counterexample — the claim's blanket "no renewal is attempted" fails
on the code: a near-expiry credential makes the pre-request proactive
renewal fire even though the eventual response is an unrecognized 401.
Exactly one renewal call happens during this wrapped call. -/
theorem unrecognized401ClaimCounterexample :
    isExcludedUrl "/api/detail2" = false
    ∧ hasAuthMarker "forbidden" = false
    ∧ (wrappedFetch
        { url := "/api/detail2", pathname := "/play"
          authInfo := some { timestamp := some 1, refreshExpires := some 2000000000000 }
          now := 1000000, cfg := TOKEN_CONFIG
          firstResponse := ⟨401, "forbidden"⟩, retryResponse := ⟨200, "ok"⟩
          refreshOutcome := .status 200, bodyReadOk := true }).response = ⟨401, "forbidden"⟩
    ∧ (wrappedFetch
        { url := "/api/detail2", pathname := "/play"
          authInfo := some { timestamp := some 1, refreshExpires := some 2000000000000 }
          now := 1000000, cfg := TOKEN_CONFIG
          firstResponse := ⟨401, "forbidden"⟩, retryResponse := ⟨200, "ok"⟩
          refreshOutcome := .status 200, bodyReadOk := true }).proactiveRenewals
      + (wrappedFetch
        { url := "/api/detail2", pathname := "/play"
          authInfo := some { timestamp := some 1, refreshExpires := some 2000000000000 }
          now := 1000000, cfg := TOKEN_CONFIG
          firstResponse := ⟨401, "forbidden"⟩, retryResponse := ⟨200, "ok"⟩
          refreshOutcome := .status 200, bodyReadOk := true }).reactiveRenewals = 1 := by
  decide

/-- A renewal that resolves `true` did not fire termination: only the
`response.ok` branch of `refreshToken` returns `true`, and it does not
terminate. -/
theorem refreshTokenRun_true_no_term (p : String) (out : RefreshOutcome)
    (h : (refreshTokenRun p out).1 = true) : (refreshTokenRun p out).2 = false := by
  cases out with
  | status code =>
    by_cases hok : respOk code
    · simp [refreshTokenRun, callRefresh, coordInit, settleRefresh, refreshResult, hok]
    · by_cases h43 : code = 401 ∨ code = 403 <;>
      by_cases hp : p = "/login" <;>
      simp [refreshTokenRun, callRefresh, coordInit, settleRefresh, refreshResult, hok, h43, hp] at h ⊢
  | netError =>
    simp [refreshTokenRun, callRefresh, coordInit, settleRefresh, refreshResult] at h

set_option maxHeartbeats 2000000 in
/-- C2 — One-replay bound.  First conjunct: for *every* wrapped call, the
original request function is invoked with the original request at most
twice (never more than one replay).  Second conjunct: for a wrapped
(non-excluded) request whose response is 401 with a recognized marker,
whose body read succeeds, whose subsequent renewal resolves `true`, and
whose pre-request expiry check did not itself terminate the session, the
original request is issued exactly twice (one initial send, exactly one
replay); if the replay again returns 401, Session Termination fires
exactly once, and if it does not, no termination fires at all. -/
theorem oneReplayBound :
    (∀ env : FetchEnv, (wrappedFetch env).origCalls.count CallLabel.orig ≤ 2)
    ∧ (∀ env : FetchEnv,
        isExcludedUrl env.url = false →
        env.firstResponse.status = 401 →
        env.pathname ≠ "/login" →
        env.bodyReadOk = true →
        hasAuthMarker env.firstResponse.body = true →
        (refreshTokenRun env.pathname env.refreshOutcome).1 = true →
        (shouldRefreshToken env.authInfo env.now env.cfg env.pathname).terminated = false →
        (wrappedFetch env).origCalls.count CallLabel.orig = 2
        ∧ (env.retryResponse.status = 401 → (wrappedFetch env).terminations = 1)
        ∧ (env.retryResponse.status ≠ 401 → (wrappedFetch env).terminations = 0)) := by
  constructor
  · intro env
    by_cases hex : isExcludedUrl env.url
    · simp [wrappedFetch, hex]
    · simp only [wrappedFetch, hex, Bool.false_eq_true, if_false]
      generalize shouldRefreshToken env.authInfo env.now env.cfg env.pathname = pre
      generalize refreshTokenRun env.pathname env.refreshOutcome = rt
      obtain ⟨res, term⟩ := pre
      obtain ⟨rv, rterm⟩ := rt
      cases res <;> cases term <;> cases rv <;> cases rterm <;>
      by_cases h1 : env.firstResponse.status = 401 <;>
      by_cases h2 : env.pathname = "/login" <;>
      by_cases h3 : env.bodyReadOk <;>
      by_cases h4 : hasAuthMarker env.firstResponse.body <;>
      by_cases h6 : env.retryResponse.status = 401 <;>
      simp [h1, h2, h3, h4, h6, List.count_append, List.count_cons, List.count_nil]
  · intro env hex h401 hlogin hbody hmark hok hterm
    have hrt2 : (refreshTokenRun env.pathname env.refreshOutcome).2 = false :=
      refreshTokenRun_true_no_term _ _ hok
    simp only [wrappedFetch, hex, Bool.false_eq_true, if_false, h401, if_true, hterm,
      hok, hrt2, hbody, hmark, hlogin]
    by_cases hp : (shouldRefreshToken env.authInfo env.now env.cfg env.pathname).result <;>
    by_cases h6 : env.retryResponse.status = 401 <;>
    simp [hp, h6, hlogin, List.count_append, List.count_cons, List.count_nil]

/-- Witness for C2: a concrete marked 401 whose renewal succeeds and whose
replay is again 401 — two invocations with the original request, one
termination. -/
theorem oneReplayBound_witness :
    (wrappedFetch
      { url := "/api/favorites", pathname := "/play"
        authInfo := none, now := 0, cfg := ⟨900000, 600000⟩
        firstResponse := ⟨401, "Unauthorized"⟩, retryResponse := ⟨401, "Unauthorized"⟩
        refreshOutcome := .status 200, bodyReadOk := true }).origCalls.count CallLabel.orig = 2
    ∧ (wrappedFetch
      { url := "/api/favorites", pathname := "/play"
        authInfo := none, now := 0, cfg := ⟨900000, 600000⟩
        firstResponse := ⟨401, "Unauthorized"⟩, retryResponse := ⟨401, "Unauthorized"⟩
        refreshOutcome := .status 200, bodyReadOk := true }).terminations = 1 :=
  ⟨(oneReplayBound.2
      { url := "/api/favorites", pathname := "/play"
        authInfo := none, now := 0, cfg := ⟨900000, 600000⟩
        firstResponse := ⟨401, "Unauthorized"⟩, retryResponse := ⟨401, "Unauthorized"⟩
        refreshOutcome := .status 200, bodyReadOk := true }
      (by decide) rfl (by decide) rfl (by decide) rfl rfl).1,
   (oneReplayBound.2
      { url := "/api/favorites", pathname := "/play"
        authInfo := none, now := 0, cfg := ⟨900000, 600000⟩
        firstResponse := ⟨401, "Unauthorized"⟩, retryResponse := ⟨401, "Unauthorized"⟩
        refreshOutcome := .status 200, bodyReadOk := true }
      (by decide) rfl (by decide) rfl (by decide) rfl rfl).2.1 rfl⟩

theorem hexVal_hexUpper (n : Nat) (h : n < 16) : hexVal (hexUpper n) = some n := by
  interval_cases n <;> decide

theorem readPctByte_byteToHex (b : Nat) (hb : b < 256) (rest : List Char) :
    readPctByte (byteToHex b ++ rest) = some (b, rest) := by
  have h1 : b / 16 < 16 := by omega
  have h2 : b % 16 < 16 := by omega
  simp [byteToHex, readPctByte, hexVal_hexUpper _ h1, hexVal_hexUpper _ h2]
  omega

theorem readContByte_byteToHex (b : Nat) (hb : 0x80 ≤ b ∧ b < 0xC0) (rest : List Char) :
    readContByte (byteToHex b ++ rest) = some (b, rest) := by
  simp [readContByte, readPctByte_byteToHex b (by omega) rest, hb.1, hb.2]

theorem charProps (c : Char) : c.toNat < 0xD800 ∨ (0xDFFF < c.toNat ∧ c.toNat < 0x110000) :=
  c.valid

theorem decodeChars_encChar (c : Char) (t : List Char) (fuel : Nat) :
    decodeChars (fuel + 1)
      ((if isUriUnreserved c then [c]
        else ((utf8Bytes c.toNat).map byteToHex).flatten) ++ t)
      = (decodeChars fuel t).map (c :: ·) := by
  by_cases hu : isUriUnreserved c
  · have hne : c ≠ '%' := by
      intro h
      rw [h] at hu
      exact absurd hu (by decide)
    simp [hu, decodeChars, hne]
  · simp only [hu, Bool.false_eq_true, if_false]
    have hval := charProps c
    by_cases h1 : c.toNat < 0x80
    · have hb : utf8Bytes c.toNat = [c.toNat] := by simp [utf8Bytes, h1]
      rw [hb]
      simp only [List.map_cons, List.map_nil, List.flatten_cons, List.flatten_nil,
        List.append_nil, List.append_assoc]
      rw [show byteToHex c.toNat ++ t
            = '%' :: (hexUpper (c.toNat / 16) :: hexUpper (c.toNat % 16) :: t) from by
          simp [byteToHex]]
      simp only [decodeChars, if_pos rfl]
      rw [show ('%' :: (hexUpper (c.toNat / 16) :: hexUpper (c.toNat % 16) :: t))
            = byteToHex c.toNat ++ t from by simp [byteToHex]]
      rw [readPctByte_byteToHex c.toNat (by omega) t]
      simp [h1, Char.ofNat_toNat]
    · by_cases h2 : c.toNat < 0x800
      · have hb : utf8Bytes c.toNat = [0xC0 + c.toNat / 64, 0x80 + c.toNat % 64] := by
          simp [utf8Bytes, h1, h2]
        rw [hb]
        simp only [List.map_cons, List.map_nil, List.flatten_cons, List.flatten_nil,
          List.append_nil, List.append_assoc]
        rw [show byteToHex (0xC0 + c.toNat / 64) ++ (byteToHex (0x80 + c.toNat % 64) ++ t)
              = '%' :: (hexUpper ((0xC0 + c.toNat / 64) / 16)
                :: hexUpper ((0xC0 + c.toNat / 64) % 16)
                :: (byteToHex (0x80 + c.toNat % 64) ++ t)) from by simp [byteToHex]]
        simp only [decodeChars, if_pos rfl]
        rw [show ('%' :: (hexUpper ((0xC0 + c.toNat / 64) / 16)
                :: hexUpper ((0xC0 + c.toNat / 64) % 16)
                :: (byteToHex (0x80 + c.toNat % 64) ++ t)))
              = byteToHex (0xC0 + c.toNat / 64) ++ (byteToHex (0x80 + c.toNat % 64) ++ t) from by
            simp [byteToHex]]
        rw [readPctByte_byteToHex (0xC0 + c.toNat / 64) (by omega) _]
        have e1 : ¬ (0xC0 + c.toNat / 64 < 0x80) := by omega
        have e2 : ¬ (0xC0 + c.toNat / 64 < 0xC0) := by omega
        have e3 : (0xC0 + c.toNat / 64 < 0xE0) := by omega
        simp only [e1, e2, e3, if_false, if_true, if_pos, if_neg]
        rw [readContByte_byteToHex (0x80 + c.toNat % 64) (by omega) t]
        have e4 : (0xC0 + c.toNat / 64 - 0xC0) * 64 + (0x80 + c.toNat % 64 - 0x80)
            = c.toNat := by omega
        simp only [e4]
        have e5 : ¬ (c.toNat < 0x80) := by omega
        simp [e5, Char.ofNat_toNat]
      · by_cases h3 : c.toNat < 0x10000
        · have hb : utf8Bytes c.toNat
              = [0xE0 + c.toNat / 4096, 0x80 + c.toNat / 64 % 64, 0x80 + c.toNat % 64] := by
            simp [utf8Bytes, h1, h2, h3]
          rw [hb]
          simp only [List.map_cons, List.map_nil, List.flatten_cons, List.flatten_nil,
            List.append_nil, List.append_assoc]
          rw [show byteToHex (0xE0 + c.toNat / 4096)
                ++ (byteToHex (0x80 + c.toNat / 64 % 64) ++ (byteToHex (0x80 + c.toNat % 64) ++ t))
                = '%' :: (hexUpper ((0xE0 + c.toNat / 4096) / 16)
                  :: hexUpper ((0xE0 + c.toNat / 4096) % 16)
                  :: (byteToHex (0x80 + c.toNat / 64 % 64) ++ (byteToHex (0x80 + c.toNat % 64) ++ t))) from by
              simp [byteToHex]]
          simp only [decodeChars, if_pos rfl]
          rw [show ('%' :: (hexUpper ((0xE0 + c.toNat / 4096) / 16)
                  :: hexUpper ((0xE0 + c.toNat / 4096) % 16)
                  :: (byteToHex (0x80 + c.toNat / 64 % 64) ++ (byteToHex (0x80 + c.toNat % 64) ++ t))))
                = byteToHex (0xE0 + c.toNat / 4096)
                  ++ (byteToHex (0x80 + c.toNat / 64 % 64) ++ (byteToHex (0x80 + c.toNat % 64) ++ t)) from by
              simp [byteToHex]]
          rw [readPctByte_byteToHex (0xE0 + c.toNat / 4096) (by omega) _]
          have e1 : ¬ (0xE0 + c.toNat / 4096 < 0x80) := by omega
          have e2 : ¬ (0xE0 + c.toNat / 4096 < 0xC0) := by omega
          have e3 : ¬ (0xE0 + c.toNat / 4096 < 0xE0) := by omega
          have e4 : (0xE0 + c.toNat / 4096 < 0xF0) := by omega
          simp only [e1, e2, e3, e4, if_false, if_true, if_pos, if_neg]
          simp only [readContByte_byteToHex (0x80 + c.toNat / 64 % 64) (by omega),
            readContByte_byteToHex (0x80 + c.toNat % 64) (by omega)]
          have e5 : (0xE0 + c.toNat / 4096 - 0xE0) * 4096
              + (0x80 + c.toNat / 64 % 64 - 0x80) * 64 + (0x80 + c.toNat % 64 - 0x80)
              = c.toNat := by omega
          simp only [e5]
          have e6 : ¬ (c.toNat < 0x800) := by omega
          have e7 : ¬ (0xD800 ≤ c.toNat ∧ c.toNat < 0xE000) := by
            rcases hval with h | h <;> omega
          simp [e6, e7, Char.ofNat_toNat]
        · have h4 : c.toNat < 0x110000 := by
            rcases hval with h | h
            · omega
            · exact h.2
          have hb : utf8Bytes c.toNat
              = [0xF0 + c.toNat / 262144, 0x80 + c.toNat / 4096 % 64,
                 0x80 + c.toNat / 64 % 64, 0x80 + c.toNat % 64] := by
            simp [utf8Bytes, h1, h2, h3]
          rw [hb]
          simp only [List.map_cons, List.map_nil, List.flatten_cons, List.flatten_nil,
            List.append_nil, List.append_assoc]
          rw [show byteToHex (0xF0 + c.toNat / 262144)
                ++ (byteToHex (0x80 + c.toNat / 4096 % 64)
                  ++ (byteToHex (0x80 + c.toNat / 64 % 64) ++ (byteToHex (0x80 + c.toNat % 64) ++ t)))
                = '%' :: (hexUpper ((0xF0 + c.toNat / 262144) / 16)
                  :: hexUpper ((0xF0 + c.toNat / 262144) % 16)
                  :: (byteToHex (0x80 + c.toNat / 4096 % 64)
                    ++ (byteToHex (0x80 + c.toNat / 64 % 64) ++ (byteToHex (0x80 + c.toNat % 64) ++ t)))) from by
              simp [byteToHex]]
          simp only [decodeChars, if_pos rfl]
          rw [show ('%' :: (hexUpper ((0xF0 + c.toNat / 262144) / 16)
                  :: hexUpper ((0xF0 + c.toNat / 262144) % 16)
                  :: (byteToHex (0x80 + c.toNat / 4096 % 64)
                    ++ (byteToHex (0x80 + c.toNat / 64 % 64) ++ (byteToHex (0x80 + c.toNat % 64) ++ t)))))
                = byteToHex (0xF0 + c.toNat / 262144)
                  ++ (byteToHex (0x80 + c.toNat / 4096 % 64)
                    ++ (byteToHex (0x80 + c.toNat / 64 % 64) ++ (byteToHex (0x80 + c.toNat % 64) ++ t))) from by
              simp [byteToHex]]
          rw [readPctByte_byteToHex (0xF0 + c.toNat / 262144) (by omega) _]
          have e1 : ¬ (0xF0 + c.toNat / 262144 < 0x80) := by omega
          have e2 : ¬ (0xF0 + c.toNat / 262144 < 0xC0) := by omega
          have e3 : ¬ (0xF0 + c.toNat / 262144 < 0xE0) := by omega
          have e4 : ¬ (0xF0 + c.toNat / 262144 < 0xF0) := by omega
          have e5 : (0xF0 + c.toNat / 262144 < 0xF8) := by omega
          simp only [e1, e2, e3, e4, e5, if_false, if_true, if_pos, if_neg]
          simp only [readContByte_byteToHex (0x80 + c.toNat / 4096 % 64) (by omega),
            readContByte_byteToHex (0x80 + c.toNat / 64 % 64) (by omega),
            readContByte_byteToHex (0x80 + c.toNat % 64) (by omega)]
          have e6 : (0xF0 + c.toNat / 262144 - 0xF0) * 262144
              + (0x80 + c.toNat / 4096 % 64 - 0x80) * 4096
              + (0x80 + c.toNat / 64 % 64 - 0x80) * 64 + (0x80 + c.toNat % 64 - 0x80)
              = c.toNat := by omega
          simp only [e6]
          have e7 : ¬ (c.toNat < 0x10000) := by omega
          have e8 : ¬ (0x110000 ≤ c.toNat) := by omega
          simp [e7, e8, Char.ofNat_toNat]

theorem encodeURIComponent_cons (c : Char) (t : List Char) :
    encodeURIComponent (c :: t)
      = (if isUriUnreserved c then [c]
         else ((utf8Bytes c.toNat).map byteToHex).flatten) ++ encodeURIComponent t := by
  simp [encodeURIComponent]

theorem decodeChars_encode (s : List Char) (fuel : Nat) (hf : s.length ≤ fuel) :
    decodeChars fuel (encodeURIComponent s) = some s := by
  induction s generalizing fuel with
  | nil =>
    cases fuel <;> rfl
  | cons c t ih =>
    obtain ⟨f, rfl⟩ : ∃ f, fuel = f + 1 := ⟨fuel - 1, by simp at hf; omega⟩
    rw [encodeURIComponent_cons, decodeChars_encChar, ih f (by simp at hf; omega)]
    rfl

theorem encodeURIComponent_length (s : List Char) :
    s.length ≤ (encodeURIComponent s).length := by
  induction s with
  | nil => simp [encodeURIComponent]
  | cons c t ih =>
    rw [encodeURIComponent_cons]
    by_cases hu : isUriUnreserved c
    · simp [hu]
      omega
    · have hval := charProps c
      have hlen : 1 ≤ (((utf8Bytes c.toNat).map byteToHex).flatten).length := by
        by_cases h1 : c.toNat < 0x80
        · simp [utf8Bytes, h1, byteToHex]
        · by_cases h2 : c.toNat < 0x800
          · simp [utf8Bytes, h1, h2, byteToHex]
          · by_cases h3 : c.toNat < 0x10000
            · simp [utf8Bytes, h1, h2, h3, byteToHex]
            · simp [utf8Bytes, h1, h2, h3, byteToHex]
      simp only [hu, Bool.false_eq_true, if_false, List.length_append, List.length_cons]
      omega

theorem decodeURIComponent_encode (s : List Char) :
    decodeURIComponent (encodeURIComponent s) = some s :=
  decodeChars_encode s _ (encodeURIComponent_length s)

theorem decodeChars_no_pct (s : List Char) (fuel : Nat) (hf : s.length ≤ fuel)
    (h : ¬ '%' ∈ s) : decodeChars fuel s = some s := by
  induction s generalizing fuel with
  | nil => cases fuel <;> rfl
  | cons c t ih =>
    obtain ⟨f, rfl⟩ : ∃ f, fuel = f + 1 := ⟨fuel - 1, by simp at hf; omega⟩
    have hc : c ≠ '%' := by
      intro hh
      exact h (hh ▸ List.mem_cons_self c t)
    have ht : ¬ '%' ∈ t := fun hh => h (List.mem_cons_of_mem c hh)
    simp only [decodeChars, hc, if_false, if_neg hc]
    rw [ih f (by simp at hf; omega) ht]
    rfl

theorem decodeURIComponent_no_pct (s : List Char) (h : ¬ '%' ∈ s) :
    decodeURIComponent s = some s :=
  decodeChars_no_pct s _ (Nat.le_refl _) h

theorem encodeURIComponent_brace (t : List Char) :
    encodeURIComponent ('{' :: t) = '%' :: '7' :: 'B' :: encodeURIComponent t := by
  rw [encodeURIComponent_cons]
  rfl

theorem charToNat_ofNat (n : Nat) (h : n < 0xD800 ∨ (0xDFFF < n ∧ n < 0x110000)) :
    (Char.ofNat n).toNat = n := by
  simp only [Char.ofNat, Char.toNat]
  rw [dif_pos h]
  simp [Char.ofNatAux, UInt32.toNat, BitVec.toNat_ofNat]

theorem natToCharsAux_fuel (n : Nat) : ∀ f1 f2 acc, n < f1 → n < f2 →
    natToCharsAux f1 n acc = natToCharsAux f2 n acc := by
  induction n using Nat.strong_induction_on with
  | _ n ih =>
    intro f1 f2 acc h1 h2
    obtain ⟨a, rfl⟩ : ∃ a, f1 = a + 1 := ⟨f1 - 1, by omega⟩
    obtain ⟨b, rfl⟩ : ∃ b, f2 = b + 1 := ⟨f2 - 1, by omega⟩
    by_cases hn : n < 10
    · simp [natToCharsAux, hn]
    · have hd : n / 10 < n := Nat.div_lt_self (by omega) (by omega)
      have h10 : n / 10 * 10 ≤ n := Nat.div_mul_le_self n 10
      simp only [natToCharsAux, hn, if_false]
      exact ih (n / 10) hd a b _ (by omega) (by omega)

theorem natToCharsAux_acc (fuel : Nat) : ∀ n acc, n < fuel →
    natToCharsAux fuel n acc = natToCharsAux fuel n [] ++ acc := by
  induction fuel with
  | zero => omega
  | succ f ih =>
    intro n acc hn
    by_cases h : n < 10
    · simp [natToCharsAux, h]
    · have hd : n / 10 < n := Nat.div_lt_self (by omega) (by omega)
      have h10 : n / 10 * 10 ≤ n := Nat.div_mul_le_self n 10
      simp only [natToCharsAux, h, if_false]
      rw [ih (n / 10) _ (by omega), ih (n / 10) [Char.ofNat (48 + n % 10)] (by omega)]
      simp

theorem natToChars_small (n : Nat) (h : n < 10) :
    natToChars n = [Char.ofNat (48 + n)] := by
  simp [natToChars, natToCharsAux, h]

theorem natToChars_step (n : Nat) (h : 10 ≤ n) :
    natToChars n = natToChars (n / 10) ++ [Char.ofNat (48 + n % 10)] := by
  have hd : n / 10 < n := Nat.div_lt_self (by omega) (by omega)
  have h10 : n / 10 * 10 ≤ n := Nat.div_mul_le_self n 10
  show natToCharsAux (n + 1) n [] = _
  simp only [natToCharsAux, Nat.lt_irrefl, if_neg (by omega : ¬ n < 10)]
  rw [natToCharsAux_acc n (n / 10) _ (by omega),
    natToCharsAux_fuel (n / 10) n (n / 10 + 1) [] (by omega) (by omega)]
  rfl

theorem natToChars_digits (n : Nat) : ∀ c ∈ natToChars n, isDigitCh c = true := by
  induction n using Nat.strong_induction_on with
  | _ n ih =>
    by_cases h : n < 10
    · rw [natToChars_small n h]
      intro c hc
      simp at hc
      subst hc
      interval_cases n <;> decide
    · rw [natToChars_step n (by omega)]
      intro c hc
      rcases List.mem_append.1 hc with hc | hc
      · exact ih (n / 10) (Nat.div_lt_self (by omega) (by omega)) c hc
      · simp at hc
        subst hc
        have hm : n % 10 < 10 := by omega
        set m := n % 10 with hmdef
        interval_cases m <;> decide

theorem valFold (n : Nat) : ∀ init : Nat,
    List.foldl (fun a c => a * 10 + (c.toNat - 48)) init (natToChars n)
      = init * 10 ^ (natToChars n).length + n := by
  induction n using Nat.strong_induction_on with
  | _ n ih =>
    intro init
    by_cases h : n < 10
    · rw [natToChars_small n h]
      simp [charToNat_ofNat (48 + n) (Or.inl (by omega))]
    · rw [natToChars_step n (by omega)]
      rw [List.foldl_append]
      rw [ih (n / 10) (Nat.div_lt_self (by omega) (by omega)) init]
      have hd := Nat.div_add_mod n 10
      simp only [List.foldl_cons, List.foldl_nil, List.length_append, List.length_cons,
        List.length_nil, Nat.pow_succ]
      rw [charToNat_ofNat (48 + n % 10) (Or.inl (by omega))]
      have e : 48 + n % 10 - 48 = n % 10 := by omega
      rw [e]
      ring_nf
      omega

theorem valOfDigits_natToChars (n : Nat) : valOfDigits (natToChars n) = n := by
  have := valFold n 0
  simpa [valOfDigits] using this

theorem natToChars_shape (n : Nat) (h : n ≠ 0) :
    ∃ c t, natToChars n = c :: t ∧ c ≠ '0' := by
  induction n using Nat.strong_induction_on with
  | _ n ih =>
    by_cases hs : n < 10
    · refine ⟨Char.ofNat (48 + n), [], natToChars_small n hs, ?_⟩
      intro hc
      have h1 := charToNat_ofNat (48 + n) (Or.inl (by omega))
      rw [hc] at h1
      have h2 : ('0' : Char).toNat = 48 := by decide
      omega
    · obtain ⟨c, t, hct, hc0⟩ := ih (n / 10) (Nat.div_lt_self (by omega) (by omega)) (by omega)
      refine ⟨c, t ++ [Char.ofNat (48 + n % 10)], ?_, hc0⟩
      rw [natToChars_step n (by omega), hct]
      simp

theorem takeWhile_all_append (p : Char → Bool) : ∀ (ds rest : List Char),
    (∀ c ∈ ds, p c = true) →
    (∀ r rs, rest = r :: rs → p r = false) →
    (ds ++ rest).takeWhile p = ds ∧ (ds ++ rest).dropWhile p = rest := by
  intro ds rest hds hrest
  induction ds with
  | nil =>
    simp only [List.nil_append]
    cases rest with
    | nil => simp
    | cons r rs =>
      have := hrest r rs rfl
      simp_all [List.takeWhile_cons, List.dropWhile_cons]
  | cons d ds ihd =>
    have hd : p d = true := hds d (List.mem_cons_self d ds)
    have hrec := ihd (fun c hc => hds c (List.mem_cons_of_mem d hc))
    simp [List.takeWhile_cons, List.dropWhile_cons, hd, hrec.1, hrec.2]

theorem parseNumberNat_natToChars (n : Nat) (rest : List Char) (hr : numCont rest = false) :
    parseNumberNat (natToChars n ++ rest) = some (n, rest) := by
  have hrest : ∀ r rs, rest = r :: rs → isDigitCh r = false := by
    intro r rs hrr
    subst hrr
    simp [numCont] at hr
    exact hr.1.1.1
  by_cases h0 : n = 0
  · subst h0
    rw [show natToChars 0 = ['0'] from by decide]
    simp [parseNumberNat, hr]
  · obtain ⟨c, t, hct, hc0⟩ := natToChars_shape n h0
    have hdig : ∀ x ∈ natToChars n, isDigitCh x = true := natToChars_digits n
    have hcd : isDigitCh c = true := hdig c (by rw [hct]; exact List.mem_cons_self c t)
    have htd : ∀ x ∈ t, isDigitCh x = true := fun x hx =>
      hdig x (by rw [hct]; exact List.mem_cons_of_mem c hx)
    have htw := takeWhile_all_append isDigitCh t rest htd hrest
    rw [hct]
    simp only [List.cons_append, parseNumberNat, hc0, if_neg hc0, hcd, if_true]
    rw [htw.1, htw.2]
    simp only [hr, Bool.false_eq_true, if_false]
    have : valOfDigits (c :: t) = n := by
      rw [← hct]
      exact valOfDigits_natToChars n
    rw [this]

theorem isDigitCh_ne (c : Char) (h : isDigitCh c = true) :
    c ≠ '-' ∧ c ≠ 'n' ∧ c ≠ 't' ∧ c ≠ 'f' ∧ c ≠ '"' ∧ c ≠ '{' ∧ c ≠ '[' ∧ jsonWs c = false := by
  simp only [isDigitCh, decide_eq_true_eq] at h
  have h1 : (48 : Nat) ≤ c.toNat := h.1
  have h2 : c.toNat ≤ 57 := h.2
  refine ⟨?_, ?_, ?_, ?_, ?_, ?_, ?_, ?_⟩
  · rintro rfl; revert h1 h2; decide
  · rintro rfl; revert h1 h2; decide
  · rintro rfl; revert h1 h2; decide
  · rintro rfl; revert h1 h2; decide
  · rintro rfl; revert h1 h2; decide
  · rintro rfl; revert h1 h2; decide
  · rintro rfl; revert h1 h2; decide
  · simp only [jsonWs, decide_eq_false_iff_not]
    rintro (rfl | rfl | rfl | rfl) <;> revert h1 h2 <;> decide

theorem natToChars_ne_nil (n : Nat) : natToChars n ≠ [] := by
  by_cases h : n < 10
  · rw [natToChars_small n h]
    simp
  · rw [natToChars_step n (by omega)]
    simp

theorem parseNumber_intToChars (n : Int) (rest : List Char) (hr : numCont rest = false) :
    parseNumber (intToChars n ++ rest) = some (n, rest) := by
  cases n with
  | ofNat m =>
    obtain ⟨c, t, hct⟩ : ∃ c t, natToChars m = c :: t := by
      cases h : natToChars m with
      | nil => exact absurd h (natToChars_ne_nil m)
      | cons c t => exact ⟨c, t, rfl⟩
    have hcd : isDigitCh c = true :=
      natToChars_digits m c (by rw [hct]; exact List.mem_cons_self c t)
    have hne := isDigitCh_ne c hcd
    have hnum := parseNumberNat_natToChars m rest hr
    rw [hct] at hnum
    show parseNumber (natToChars m ++ rest) = _
    rw [hct]
    simp only [List.cons_append, parseNumber, if_neg hne.1]
    rw [show (c :: (t ++ rest)) = (c :: t) ++ rest from rfl, hnum]
    rfl
  | negSucc m =>
    show parseNumber ('-' :: natToChars (m + 1) ++ rest) = _
    simp only [List.cons_append, parseNumber, if_pos rfl]
    rw [parseNumberNat_natToChars (m + 1) rest hr]
    simp [Int.negSucc_eq]

theorem psb_quote (f : Nat) (rest : List Char) :
    parseStringBody (f + 1) ('"' :: rest) = some ([], rest) := rfl

theorem psb_esc_quote (f : Nat) (rest : List Char) :
    parseStringBody (f + 1) ('\\' :: '"' :: rest)
      = (parseStringBody f rest).map (fun p => ('"' :: p.1, p.2)) := rfl

theorem psb_esc_bs (f : Nat) (rest : List Char) :
    parseStringBody (f + 1) ('\\' :: '\\' :: rest)
      = (parseStringBody f rest).map (fun p => ('\\' :: p.1, p.2)) := rfl

theorem psb_esc_b (f : Nat) (rest : List Char) :
    parseStringBody (f + 1) ('\\' :: 'b' :: rest)
      = (parseStringBody f rest).map (fun p => (Char.ofNat 8 :: p.1, p.2)) := rfl

theorem psb_esc_f (f : Nat) (rest : List Char) :
    parseStringBody (f + 1) ('\\' :: 'f' :: rest)
      = (parseStringBody f rest).map (fun p => (Char.ofNat 12 :: p.1, p.2)) := rfl

theorem psb_esc_n (f : Nat) (rest : List Char) :
    parseStringBody (f + 1) ('\\' :: 'n' :: rest)
      = (parseStringBody f rest).map (fun p => ('\n' :: p.1, p.2)) := rfl

theorem psb_esc_r (f : Nat) (rest : List Char) :
    parseStringBody (f + 1) ('\\' :: 'r' :: rest)
      = (parseStringBody f rest).map (fun p => ('\r' :: p.1, p.2)) := rfl

theorem psb_esc_t (f : Nat) (rest : List Char) :
    parseStringBody (f + 1) ('\\' :: 't' :: rest)
      = (parseStringBody f rest).map (fun p => ('\t' :: p.1, p.2)) := rfl

theorem psb_esc_u (f : Nat) (rest : List Char) :
    parseStringBody (f + 1) ('\\' :: 'u' :: rest)
      = (match parseHex4 rest with
         | none => none
         | some (v, rest3) =>
           if 0xD800 ≤ v ∧ v < 0xE000 then none
           else (parseStringBody f rest3).map (fun p => (Char.ofNat v :: p.1, p.2))) := rfl

theorem psb_plain (f : Nat) (c : Char) (rest : List Char)
    (h1 : c ≠ '"') (h2 : c ≠ '\\') (h3 : ¬ c.toNat < 0x20) :
    parseStringBody (f + 1) (c :: rest)
      = (parseStringBody f rest).map (fun p => (c :: p.1, p.2)) := by
  rw [show parseStringBody (f + 1) (c :: rest)
        = (if c = '"' then some ([], rest)
           else if c = '\\' then
             match rest with
             | [] => none
             | e :: rest2 =>
               if e = '"' then (parseStringBody f rest2).map (fun p => ('"' :: p.1, p.2))
               else if e = '\\' then (parseStringBody f rest2).map (fun p => ('\\' :: p.1, p.2))
               else if e = '/' then (parseStringBody f rest2).map (fun p => ('/' :: p.1, p.2))
               else if e = 'b' then (parseStringBody f rest2).map (fun p => (Char.ofNat 8 :: p.1, p.2))
               else if e = 'f' then (parseStringBody f rest2).map (fun p => (Char.ofNat 12 :: p.1, p.2))
               else if e = 'n' then (parseStringBody f rest2).map (fun p => ('\n' :: p.1, p.2))
               else if e = 'r' then (parseStringBody f rest2).map (fun p => ('\r' :: p.1, p.2))
               else if e = 't' then (parseStringBody f rest2).map (fun p => ('\t' :: p.1, p.2))
               else if e = 'u' then
                 match parseHex4 rest2 with
                 | none => none
                 | some (v, rest3) =>
                   if 0xD800 ≤ v ∧ v < 0xE000 then none
                   else (parseStringBody f rest3).map (fun p => (Char.ofNat v :: p.1, p.2))
               else none
           else if c.toNat < 0x20 then none
           else (parseStringBody f rest).map (fun p => (c :: p.1, p.2))) from rfl]
  rw [if_neg h1, if_neg h2, if_neg h3]

theorem hexVal_hexLower (n : Nat) (h : n < 16) : hexVal (hexLower n) = some n := by
  interval_cases n <;> decide

theorem escapeString_cons (c : Char) (t : List Char) :
    escapeString (c :: t) = escapeChar c ++ escapeString t := by
  simp [escapeString]

theorem parseStringBody_escape (s : List Char) : ∀ (rest : List Char) (fuel : Nat),
    (escapeString s).length + 1 ≤ fuel →
    parseStringBody fuel (escapeString s ++ '"' :: rest) = some (s, rest) := by
  induction s with
  | nil =>
    intro rest fuel hf
    obtain ⟨f, rfl⟩ : ∃ f, fuel = f + 1 := ⟨fuel - 1, by omega⟩
    rfl
  | cons c s ih =>
    intro rest fuel hf
    rw [escapeString_cons] at hf ⊢
    have hlen : 1 ≤ (escapeChar c).length := by
      unfold escapeChar
      repeat' split
      all_goals simp
    obtain ⟨f, rfl⟩ : ∃ f, fuel = f + 1 := ⟨fuel - 1, by simp at hf; omega⟩
    have hfs : (escapeString s).length + 1 ≤ f := by
      simp [List.length_append] at hf
      omega
    have hih := ih rest f hfs
    by_cases hq : c = '"'
    · subst hq
      rw [show escapeChar '"' = ['\\', '"'] from rfl]
      simp only [List.cons_append, List.nil_append, List.append_assoc]
      rw [psb_esc_quote, hih]
      rfl
    · by_cases hbs : c = '\\'
      · subst hbs
        rw [show escapeChar '\\' = ['\\', '\\'] from by simp [escapeChar]]
        simp only [List.cons_append, List.nil_append, List.append_assoc]
        rw [psb_esc_bs, hih]
        rfl
      · by_cases h8 : c.toNat = 8
        · have hec : escapeChar c = ['\\', 'b'] := by simp [escapeChar, hq, hbs, h8]
          rw [hec]
          simp only [List.cons_append, List.nil_append, List.append_assoc]
          rw [psb_esc_b, hih]
          have hc : Char.ofNat 8 = c := by rw [← h8, Char.ofNat_toNat]
          rw [hc]
          rfl
        · by_cases h12 : c.toNat = 12
          · have hec : escapeChar c = ['\\', 'f'] := by simp [escapeChar, hq, hbs, h8, h12]
            rw [hec]
            simp only [List.cons_append, List.nil_append, List.append_assoc]
            rw [psb_esc_f, hih]
            have hc : Char.ofNat 12 = c := by rw [← h12, Char.ofNat_toNat]
            rw [hc]
            rfl
          · by_cases hn : c = '\n'
            · subst hn
              have hec : escapeChar '\n' = ['\\', 'n'] := by simp [escapeChar]
              rw [hec]
              simp only [List.cons_append, List.nil_append, List.append_assoc]
              rw [psb_esc_n, hih]
              rfl
            · by_cases hcr : c = '\r'
              · subst hcr
                have hec : escapeChar '\r' = ['\\', 'r'] := by simp [escapeChar]
                rw [hec]
                simp only [List.cons_append, List.nil_append, List.append_assoc]
                rw [psb_esc_r, hih]
                rfl
              · by_cases htb : c = '\t'
                · subst htb
                  have hec : escapeChar '\t' = ['\\', 't'] := by simp [escapeChar]
                  rw [hec]
                  simp only [List.cons_append, List.nil_append, List.append_assoc]
                  rw [psb_esc_t, hih]
                  rfl
                · by_cases hctl : c.toNat < 0x20
                  · have hec : escapeChar c
                        = ['\\', 'u', '0', '0', hexLower (c.toNat / 16), hexLower (c.toNat % 16)] := by
                      simp [escapeChar, hq, hbs, h8, h12, hn, hcr, htb, hctl]
                    rw [hec]
                    simp only [List.cons_append, List.nil_append, List.append_assoc]
                    rw [psb_esc_u]
                    have hhi : c.toNat / 16 < 16 := by omega
                    have hlo : c.toNat % 16 < 16 := by omega
                    simp only [parseHex4, hexVal_hexLower _ hhi, hexVal_hexLower _ hlo,
                      show hexVal '0' = some 0 from by decide]
                    have hv : 4096 * 0 + 256 * 0 + 16 * (c.toNat / 16) + c.toNat % 16
                        = c.toNat := by omega
                    rw [hv]
                    have hsur : ¬ (0xD800 ≤ c.toNat ∧ c.toNat < 0xE000) := by omega
                    rw [if_neg hsur, hih, Char.ofNat_toNat]
                    rfl
                  · have hec : escapeChar c = [c] := by
                      simp [escapeChar, hq, hbs, h8, h12, hn, hcr, htb, hctl]
                    rw [hec]
                    simp only [List.cons_append, List.nil_append, List.append_assoc]
                    rw [psb_plain f c _ hq hbs hctl, hih]
                    rfl

theorem pj_str (f : Nat) (R : List Char) :
    parseJson (f + 1) ('"' :: R)
      = (parseStringBody R.length R).map (fun p => (Json.str p.1, p.2)) := rfl

theorem skipWs_not_ws (c : Char) (R : List Char) (hws : jsonWs c = false) :
    skipWs (c :: R) = c :: R := by
  simp [skipWs, List.dropWhile_cons, hws]

theorem pj_num (f : Nat) (c : Char) (R : List Char)
    (hws : jsonWs c = false) (hn : c ≠ 'n') (ht : c ≠ 't') (hf : c ≠ 'f')
    (hq : c ≠ '"') (hob : c ≠ '{') (hbr : c ≠ '[') :
    parseJson (f + 1) (c :: R) = (parseNumber (c :: R)).map (fun p => (Json.num p.1, p.2)) := by
  rw [parseJson.eq_def]
  dsimp only
  rw [skipWs_not_ws c R hws]
  dsimp only
  rw [if_neg hn, if_neg ht, if_neg hf, if_neg hq, if_neg hob, if_neg hbr]

theorem parseJson_scalar (v : Json)
    (hv : (∃ s, v = .str s) ∨ (∃ n, v = .num n))
    (f : Nat) (rest : List Char) (hr : numCont rest = false) :
    parseJson (f + 1) (stringifyV v ++ rest) = some (v, rest) := by
  rcases hv with ⟨s, rfl⟩ | ⟨n, rfl⟩
  · rw [show stringifyV (.str s) = '"' :: (escapeString s ++ ['"']) from rfl]
    simp only [List.cons_append, List.append_assoc, List.singleton_append, List.nil_append]
    rw [pj_str]
    rw [parseStringBody_escape s rest _ (by simp only [List.length_append, List.length_cons]; omega)]
    rfl
  · cases n with
    | ofNat m =>
      obtain ⟨c, t, hct⟩ : ∃ c t, natToChars m = c :: t := by
        cases h : natToChars m with
        | nil => exact absurd h (natToChars_ne_nil m)
        | cons c t => exact ⟨c, t, rfl⟩
      have hcd : isDigitCh c = true :=
        natToChars_digits m c (by rw [hct]; exact List.mem_cons_self c t)
      have hne := isDigitCh_ne c hcd
      have hpn := parseNumber_intToChars (Int.ofNat m) rest hr
      rw [show intToChars (Int.ofNat m) = natToChars m from rfl, hct] at hpn
      simp only [List.cons_append] at hpn
      rw [show stringifyV (.num (Int.ofNat m)) = natToChars m from rfl, hct]
      simp only [List.cons_append]
      rw [pj_num f c _ hne.2.2.2.2.2.2.2 hne.2.1 hne.2.2.1 hne.2.2.2.1
        hne.2.2.2.2.1 hne.2.2.2.2.2.1 hne.2.2.2.2.2.2.1]
      rw [hpn]
      rfl
    | negSucc m =>
      have hpn := parseNumber_intToChars (Int.negSucc m) rest hr
      rw [show intToChars (Int.negSucc m) = '-' :: natToChars (m + 1) from rfl] at hpn
      simp only [List.cons_append] at hpn
      rw [show stringifyV (.num (Int.negSucc m)) = '-' :: natToChars (m + 1) from rfl]
      simp only [List.cons_append]
      rw [pj_num f '-' _ (by decide) (by decide) (by decide) (by decide) (by decide)
        (by decide) (by decide)]
      rw [hpn]
      rfl

theorem pm_close (f : Nat) (r : List Char) :
    parseMembers (f + 1) ('}' :: r) true = some (.obj [], r) := rfl

theorem pm_step (f : Nat) (r : List Char) (first : Bool) :
    parseMembers (f + 1) ('"' :: r) first
      = (match parseStringBody r.length r with
         | none => none
         | some (key, r2) =>
           match skipWs r2 with
           | [] => none
           | c3 :: r3 =>
             if c3 = ':' then
               match parseJson f r3 with
               | none => none
               | some (v, r4) =>
                 match skipWs r4 with
                 | [] => none
                 | c5 :: r5 =>
                   if c5 = ',' then
                     match parseMembers f (skipWs r5) false with
                     | some (.obj ms, r6) => some (.obj ((key, v) :: ms), r6)
                     | _ => none
                   else if c5 = '}' then some (.obj [(key, v)], r5)
                   else none
             else none) := rfl

theorem pj_obj (f : Nat) (R : List Char) :
    parseJson (f + 1) ('{' :: R) = parseMembers f (skipWs R) true := rfl

theorem numCont_restM (ms : List (List Char × Json)) (rest : List Char) :
    numCont (stringifyRestM ms ++ rest) = false := by
  cases ms <;> rfl

theorem parseMembers_flat :
    ∀ (ms : List (List Char × Json)) (k : List Char) (v : Json) (fuel : Nat)
      (rest : List Char) (first : Bool),
    ((∃ s, v = .str s) ∨ (∃ n, v = .num n)) →
    (∀ m ∈ ms, (∃ s, m.2 = .str s) ∨ (∃ n, m.2 = .num n)) →
    ms.length + 2 ≤ fuel →
    parseMembers fuel
      ('"' :: (escapeString k ++ ('"' :: ':' :: (stringifyV v ++ (stringifyRestM ms ++ rest)))))
      first
      = some (.obj ((k, v) :: ms), rest) := by
  intro ms
  induction ms with
  | nil =>
    intro k v fuel rest first hv _ hfuel
    obtain ⟨f, rfl⟩ : ∃ f, fuel = f + 1 := ⟨fuel - 1, by omega⟩
    obtain ⟨g, rfl⟩ : ∃ g, f = g + 1 := ⟨f - 1, by omega⟩
    rw [pm_step]
    rw [parseStringBody_escape k _ _ (by simp only [List.length_append, List.length_cons]; omega)]
    try dsimp only
    rw [skipWs_not_ws ':' _ (by decide)]
    try dsimp only
    rw [if_pos rfl]
    rw [parseJson_scalar v hv g _ (numCont_restM [] rest)]
    try dsimp only
    rw [show stringifyRestM [] ++ rest = '}' :: rest from rfl]
    rw [skipWs_not_ws '}' rest (by decide)]
    try dsimp only
    rw [if_neg (by decide : ¬ ('}' : Char) = ','), if_pos rfl]
  | cons m2 ms2 ih =>
    intro k v fuel rest first hv hms hfuel
    obtain ⟨f, rfl⟩ : ∃ f, fuel = f + 1 := ⟨fuel - 1, by omega⟩
    obtain ⟨g, rfl⟩ : ∃ g, f = g + 1 := ⟨f - 1, by simp at hfuel; omega⟩
    rw [pm_step]
    rw [parseStringBody_escape k _ _ (by simp only [List.length_append, List.length_cons]; omega)]
    try dsimp only
    rw [skipWs_not_ws ':' _ (by decide)]
    try dsimp only
    rw [if_pos rfl]
    rw [parseJson_scalar v hv g _ (numCont_restM (m2 :: ms2) rest)]
    try dsimp only
    rw [show stringifyRestM (m2 :: ms2) ++ rest
          = ',' :: ('"' :: (escapeString m2.1 ++ ('"' :: ':' :: stringifyV m2.2))
              ++ (stringifyRestM ms2 ++ rest)) from by
        simp [stringifyRestM, List.cons_append, List.append_assoc]]
    rw [skipWs_not_ws ',' _ (by decide)]
    try dsimp only
    rw [if_pos rfl]
    simp only [List.cons_append, List.append_assoc]
    rw [skipWs_not_ws '"' _ (by decide)]
    have hrec := ih m2.1 m2.2 (g + 1) rest false
      (hms m2 (List.mem_cons_self m2 ms2))
      (fun m hm => hms m (List.mem_cons_of_mem m2 hm))
      (by simp at hfuel ⊢; omega)
    rw [hrec]

theorem restM_len (ms : List (List Char × Json)) :
    ms.length + 1 ≤ (stringifyRestM ms).length := by
  induction ms with
  | nil => simp [stringifyRestM]
  | cons m ms2 ih =>
    simp only [stringifyRestM, List.length_cons, List.length_append]
    omega

theorem parseJson_flat_obj (ms : List (List Char × Json))
    (hms : ∀ m ∈ ms, (∃ s, m.2 = .str s) ∨ (∃ n, m.2 = .num n))
    (fuel : Nat) (rest : List Char) (hf : ms.length + 2 ≤ fuel) :
    parseJson fuel (stringifyV (.obj ms) ++ rest) = some (.obj ms, rest) := by
  obtain ⟨f, rfl⟩ : ∃ f, fuel = f + 1 := ⟨fuel - 1, by omega⟩
  cases ms with
  | nil =>
    obtain ⟨g, rfl⟩ : ∃ g, f = g + 1 := ⟨f - 1, by omega⟩
    rw [show stringifyV (.obj []) ++ rest = '{' :: '}' :: rest from rfl]
    rw [pj_obj, skipWs_not_ws '}' rest (by decide), pm_close]
  | cons m ms2 =>
    rw [show stringifyV (.obj (m :: ms2))
          = '{' :: ('"' :: (escapeString m.1 ++ ('"' :: ':' :: stringifyV m.2))
              ++ stringifyRestM ms2) from rfl]
    simp only [List.cons_append, List.append_assoc]
    rw [pj_obj, skipWs_not_ws '"' _ (by decide)]
    exact parseMembers_flat ms2 m.1 m.2 f rest true
      (hms m (List.mem_cons_self m ms2))
      (fun x hx => hms x (List.mem_cons_of_mem m hx))
      (by simp at hf ⊢; omega)

theorem jsonParse_flat_obj (ms : List (List Char × Json))
    (hms : ∀ m ∈ ms, (∃ s, m.2 = .str s) ∨ (∃ n, m.2 = .num n)) :
    jsonParse (stringifyV (.obj ms)) = some (.obj ms) := by
  have hlen : ms.length + 2 ≤ (stringifyV (.obj ms)).length + 1 := by
    cases ms with
    | nil => simp [stringifyV]
    | cons m ms2 =>
      have := restM_len ms2
      simp only [stringifyV, List.length_cons, List.length_append]
      omega
  unfold jsonParse
  rw [show stringifyV (.obj ms) = stringifyV (.obj ms) ++ [] from by simp]
  rw [parseJson_flat_obj ms hms _ [] (by simpa using hlen)]
  rfl

theorem authInfoToJson_members (a : AuthInfo) :
    ∀ m ∈ (match authInfoToJson a with | .obj ms => ms | _ => []),
      (∃ s, m.2 = Json.str s) ∨ (∃ n, m.2 = Json.num n) := by
  intro m hm
  simp only [authInfoToJson, List.mem_append] at hm
  rcases hm with ((((((hm | hm) | hm) | hm) | hm) | hm) | hm) | hm
  · revert hm
    cases a.password <;> simp <;> (rintro rfl; exact Or.inl ⟨_, rfl⟩)
  · revert hm
    cases a.username <;> simp <;> (rintro rfl; exact Or.inl ⟨_, rfl⟩)
  · revert hm
    cases a.signature <;> simp <;> (rintro rfl; exact Or.inl ⟨_, rfl⟩)
  · revert hm
    cases a.timestamp <;> simp <;> (rintro rfl; exact Or.inr ⟨_, rfl⟩)
  · revert hm
    cases a.role <;> simp <;> (rintro rfl; exact Or.inl ⟨_, rfl⟩)
  · revert hm
    cases a.tokenId <;> simp <;> (rintro rfl; exact Or.inl ⟨_, rfl⟩)
  · revert hm
    cases a.refreshToken <;> simp <;> (rintro rfl; exact Or.inl ⟨_, rfl⟩)
  · revert hm
    cases a.refreshExpires <;> simp <;> (rintro rfl; exact Or.inr ⟨_, rfl⟩)

theorem jsonParse_authInfo (a : AuthInfo) :
    jsonParse (stringifyV (authInfoToJson a)) = some (authInfoToJson a) := by
  have h := authInfoToJson_members a
  rw [show authInfoToJson a = Json.obj (match authInfoToJson a with | .obj ms => ms | _ => []) from rfl] at *
  exact jsonParse_flat_obj _ h

theorem authInfo_json_head (a : AuthInfo) :
    ∃ t, stringifyV (authInfoToJson a) = '{' :: t := by
  rw [show authInfoToJson a
        = Json.obj (match authInfoToJson a with | .obj ms => ms | _ => []) from rfl]
  cases (match authInfoToJson a with | .obj ms => ms | _ => []) with
  | nil => exact ⟨['}'], rfl⟩
  | cons m ms => exact ⟨_, rfl⟩

theorem c8_zero (a : AuthInfo)
    (hp : ¬ '%' ∈ stringifyV (authInfoToJson a)) :
    parseAuthInfo (some (stringifyV (authInfoToJson a))) = some (authInfoToJson a) := by
  obtain ⟨t, hJ⟩ := authInfo_json_head a
  have hne : (stringifyV (authInfoToJson a)).isEmpty = false := by rw [hJ]; rfl
  have hcontains : (stringifyV (authInfoToJson a)).contains '%' = false := by
    cases hcb : (stringifyV (authInfoToJson a)).contains '%' with
    | false => rfl
    | true => exact absurd (List.elem_iff.1 hcb) hp
  simp only [parseAuthInfo, hne, Bool.false_eq_true, if_false]
  rw [decodeURIComponent_no_pct _ hp]
  simp only [hcontains, Bool.false_eq_true, if_false]
  exact jsonParse_authInfo a

theorem c8_once (a : AuthInfo)
    (hp : ¬ '%' ∈ stringifyV (authInfoToJson a)) :
    parseAuthInfo (some (encodeURIComponent (stringifyV (authInfoToJson a))))
      = some (authInfoToJson a) := by
  obtain ⟨t, hJ⟩ := authInfo_json_head a
  have hne : (encodeURIComponent (stringifyV (authInfoToJson a))).isEmpty = false := by
    rw [hJ, encodeURIComponent_brace]
    rfl
  have hcontains : (stringifyV (authInfoToJson a)).contains '%' = false := by
    cases hcb : (stringifyV (authInfoToJson a)).contains '%' with
    | false => rfl
    | true => exact absurd (List.elem_iff.1 hcb) hp
  simp only [parseAuthInfo, hne, Bool.false_eq_true, if_false]
  rw [decodeURIComponent_encode]
  simp only [hcontains, Bool.false_eq_true, if_false]
  exact jsonParse_authInfo a

theorem c8_twice (a : AuthInfo) :
    parseAuthInfo (some (encodeURIComponent (encodeURIComponent (stringifyV (authInfoToJson a)))))
      = some (authInfoToJson a) := by
  obtain ⟨t, hJ⟩ := authInfo_json_head a
  have hne : (encodeURIComponent (encodeURIComponent (stringifyV (authInfoToJson a)))).isEmpty
      = false := by
    rw [hJ, encodeURIComponent_brace]
    rw [show ('%' :: '7' :: 'B' :: encodeURIComponent t)
          = ['%', '7', 'B'] ++ encodeURIComponent t from rfl]
    rw [show encodeURIComponent (['%', '7', 'B'] ++ encodeURIComponent t)
          = encodeURIComponent ('%' :: ('7' :: 'B' :: encodeURIComponent t)) from rfl]
    rw [encodeURIComponent_cons]
    rfl
  have hcontains : (encodeURIComponent (stringifyV (authInfoToJson a))).contains '%' = true := by
    rw [hJ, encodeURIComponent_brace]
    simp [List.contains_cons]
  simp only [parseAuthInfo, hne, Bool.false_eq_true, if_false]
  rw [decodeURIComponent_encode]
  simp only [hcontains, if_true]
  rw [decodeURIComponent_encode]
  exact jsonParse_authInfo a

/-- C8 (amended) — Decode round-trip under repeated percent-encoding: for
every credential record whose JSON text `j` contains no `%` character,
`parseAuthInfo` returns the record when applied to `j`, to
`encodeURIComponent j`, and to
`encodeURIComponent (encodeURIComponent j)`. -/
theorem percentDecodeRoundTrip (a : AuthInfo)
    (hp : ¬ '%' ∈ stringifyV (authInfoToJson a)) :
    parseAuthInfo (some (stringifyV (authInfoToJson a))) = some (authInfoToJson a)
    ∧ parseAuthInfo (some (encodeURIComponent (stringifyV (authInfoToJson a))))
        = some (authInfoToJson a)
    ∧ parseAuthInfo (some (encodeURIComponent (encodeURIComponent (stringifyV (authInfoToJson a)))))
        = some (authInfoToJson a) :=
  ⟨c8_zero a hp, c8_once a hp, c8_twice a⟩

/-- Witness for C8 at a concrete record with a string and a number field. -/
theorem percentDecodeRoundTrip_witness :
    parseAuthInfo (some (stringifyV (authInfoToJson
        { username := some ['a', 'l', 'i', 'c', 'e'], timestamp := some 123 })))
      = some (authInfoToJson
        { username := some ['a', 'l', 'i', 'c', 'e'], timestamp := some 123 })
    ∧ parseAuthInfo (some (encodeURIComponent (stringifyV (authInfoToJson
        { username := some ['a', 'l', 'i', 'c', 'e'], timestamp := some 123 }))))
      = some (authInfoToJson
        { username := some ['a', 'l', 'i', 'c', 'e'], timestamp := some 123 })
    ∧ parseAuthInfo (some (encodeURIComponent (encodeURIComponent (stringifyV (authInfoToJson
        { username := some ['a', 'l', 'i', 'c', 'e'], timestamp := some 123 })))))
      = some (authInfoToJson
        { username := some ['a', 'l', 'i', 'c', 'e'], timestamp := some 123 }) :=
  percentDecodeRoundTrip
    { username := some ['a', 'l', 'i', 'c', 'e'], timestamp := some 123 } (by decide)

/-- C8 counterexample — the claim as stated (for *every* record) fails on
the code: for the record with `password = "100%"`, the once-encoded JSON
text decodes to the original text, which still contains a `%`, so the
reader attempts a second decode; that decode throws (`"100%"` is not a
valid percent sequence), the reader falls back to the *encoded* original
string, and `JSON.parse` then fails — `parseAuthInfo` returns `null`
instead of the record. -/
theorem percentDecodeRoundTripCounterexample :
    parseAuthInfo (some (encodeURIComponent (stringifyV (authInfoToJson
        { password := some ['1', '0', '0', '%'] }))))
      = none
    ∧ parseAuthInfo (some (encodeURIComponent (stringifyV (authInfoToJson
        { password := some ['1', '0', '0', '%'] }))))
      ≠ some (authInfoToJson { password := some ['1', '0', '0', '%'] }) := by
  refine ⟨rfl, ?_⟩
  intro h
  rw [show parseAuthInfo (some (encodeURIComponent (stringifyV (authInfoToJson
        { password := some ['1', '0', '0', '%'] })))) = none from rfl] at h
  exact Option.noConfusion h

/-- C10 (amended) — Header-over-cookie precedence: `getAuthInfoFromCookie`
returns the record parsed from the `Authorization` header (after the
case-insensitive `Bearer`/`Token` stripping and trimming of
`getAuthTokenFromHeader`) whenever the header is present, nonempty, and
parses to a truthy value — every object, in particular every credential
record, is truthy.  Only otherwise (header absent, empty, unparsable, or
parsing to a falsy primitive) does it fall back to parsing the `auth`
cookie, returning `null` when that cookie is absent. -/
theorem headerOverCookiePrecedence :
    (∀ (req : AuthRequest) (h : List Char) (j : Json),
        req.authorization = some h → h ≠ [] →
        parseAuthInfo (some (getAuthTokenFromHeader h)) = some j →
        jsTruthy j = true →
        getAuthInfoFromCookie req = some j)
    ∧ (∀ req : AuthRequest,
        (∀ (h : List Char) (j : Json), req.authorization = some h → h ≠ [] →
          parseAuthInfo (some (getAuthTokenFromHeader h)) = some j → jsTruthy j = false) →
        getAuthInfoFromCookie req
          = match req.authCookie with
            | none => none
            | some cv => parseAuthInfo (some cv)) := by
  constructor
  · intro req h j hauth hne hparse htruthy
    unfold getAuthInfoFromCookie
    rw [hauth]
    have hie : h.isEmpty = false := by
      cases h with
      | nil => exact absurd rfl hne
      | cons c t => rfl
    simp only [hie, Bool.false_eq_true, if_false]
    rw [hparse]
    simp only [htruthy, if_true]
  · intro req hfail
    unfold getAuthInfoFromCookie
    cases hauth : req.authorization with
    | none => rfl
    | some h =>
      by_cases hne : h = []
      · subst hne
        rfl
      · have hie : h.isEmpty = false := by
          cases h with
          | nil => exact absurd rfl hne
          | cons c t => rfl
        simp only [hie, Bool.false_eq_true, if_false]
        cases hparse : parseAuthInfo (some (getAuthTokenFromHeader h)) with
        | none => rfl
        | some j =>
          have ht := hfail h j hauth hne hparse
          simp only [ht, Bool.false_eq_true, if_false]

/-- Witness for C10: a `Bearer` header carrying a JSON record wins over an
absent cookie; the header is stripped, trimmed and parsed. -/
theorem headerOverCookiePrecedence_witness :
    getAuthInfoFromCookie
      { authorization := some ['B', 'e', 'a', 'r', 'e', 'r', ' ',
          '{', '"', 'u', 's', 'e', 'r', 'n', 'a', 'm', 'e', '"', ':', '"', 'b', '"', '}']
        authCookie := none }
      = some (Json.obj [(['u', 's', 'e', 'r', 'n', 'a', 'm', 'e'], Json.str ['b'])]) :=
  headerOverCookiePrecedence.1
    { authorization := some ['B', 'e', 'a', 'r', 'e', 'r', ' ',
        '{', '"', 'u', 's', 'e', 'r', 'n', 'a', 'm', 'e', '"', ':', '"', 'b', '"', '}']
      authCookie := none }
    ['B', 'e', 'a', 'r', 'e', 'r', ' ',
      '{', '"', 'u', 's', 'e', 'r', 'n', 'a', 'm', 'e', '"', ':', '"', 'b', '"', '}']
    (Json.obj [(['u', 's', 'e', 'r', 'n', 'a', 'm', 'e'], Json.str ['b'])])
    rfl (by decide) rfl rfl

/-- C10 counterexample — the claim as literally stated ("parses to a
non-null record") fails on the code: the header `"0"` parses to the
non-null JSON value `0`, yet the code's truthiness test `if
(headerAuthInfo)` treats `0` as falsy and falls back to the cookie's
record instead of returning the header's value. -/
theorem headerOverCookiePrecedenceCounterexample :
    parseAuthInfo (some (getAuthTokenFromHeader ['0'])) = some (Json.num 0)
    ∧ getAuthInfoFromCookie
        { authorization := some ['0']
          authCookie := some ['{', '"', 'u', 's', 'e', 'r', 'n', 'a', 'm', 'e', '"',
            ':', '"', 'b', '"', '}'] }
        = some (Json.obj [(['u', 's', 'e', 'r', 'n', 'a', 'm', 'e'], Json.str ['b'])]) :=
  ⟨rfl, rfl⟩
